import Mathlib

/-!
Shallow embedding of the block prefetcher in `libkbfs/prefetcher.go`.

The worker owns two association-list maps: `prefetches` (the active prefetch
forest, keyed by block ID) and `rescheduled` (backoff state for deferred
top-level prefetches).  External collaborators (the block retriever, the disk
cache, the backoff library) are modelled by an `Env` of oracles, and the
observable calls the worker makes to them are recorded as a list of `Effect`s.
A Go `panic` is modelled as `Except.error`; Go `int` counters are modelled as
`Int` (the counters stay far below machine bounds, so overflow is immaterial).
-/

deriving instance DecidableEq for Except

namespace Prefetcher

/-- Content hash identifying a block (`kbfsblock.ID`). -/
abbrev BlockID := Nat

/-- Distinguisher for multiple logical references to one block (`kbfsblock.RefNonce`). -/
abbrev RefNonce := Nat

/-- A specific reference to a block: its ID plus the reference nonce. -/
structure BlockPointer where
  id : BlockID
  refNonce : RefNonce
deriving DecidableEq, Repr

/-- Directory entry types (`Dir`, `File`, `Exec`, `Sym`, plus unknown). -/
inductive EntryType
  | dir
  | file
  | exec
  | sym
  | other
deriving DecidableEq, Repr

/-- Whether `prefetchDirectDirBlock` issues a child request for this entry type:
symbolic links and unknown types are skipped. -/
def EntryType.prefetchable : EntryType → Bool
  | .sym => false
  | .other => false
  | _ => true

/-- An entry of a direct directory block, with the size used for the
ascending-size processing order. -/
structure DirEntry where
  ptr : BlockPointer
  entryType : EntryType
  size : Nat
deriving DecidableEq, Repr

/-- The block shapes `handlePrefetch` dispatches on: `*FileBlock` (with `IsInd`
and `IPtrs`), `*DirBlock` (with `IsInd`, `IPtrs` and `Children`), and any other
implementation of `Block` (e.g. `CommonBlock`). -/
inductive Block
  | fileBlock (isInd : Bool) (iptrs : List BlockPointer)
  | dirBlock (isInd : Bool) (iptrs : List BlockPointer) (children : List DirEntry)
  | commonBlock
deriving DecidableEq, Repr

/-- `NewEmpty`: allocate an empty block of the same shape. -/
def Block.newEmpty : Block → Block
  | .fileBlock _ _ => .fileBlock false []
  | .dirBlock _ _ _ => .dirBlock false [] []
  | .commonBlock => .commonBlock

/-- Modelled from the spec: `IsTail` (the implementation lives outside the
provided sources).  A tail block has no prefetchable children: a direct file
block, an indirect block with no indirect pointers, or a direct directory all
of whose entries are symbolic links or of unknown type. -/
def Block.isTail : Block → Bool
  | .fileBlock true iptrs => iptrs.isEmpty
  | .fileBlock false _ => true
  | .dirBlock true iptrs _ => iptrs.isEmpty
  | .dirBlock false _ children => children.all (fun e => !e.entryType.prefetchable)
  | .commonBlock => true

/-- Prefetch status of a block in the cache. -/
inductive PrefetchStatus
  | noPrefetch
  | triggeredPrefetch
  | finishedPrefetch
deriving DecidableEq, Repr

/-- Modelled from the spec: `BlockRequestAction` is an enum-like bundle exposing
`Prefetch(block)`, `Sync()`, `DeepSync()`, `StopIfFull()`, `CacheType()`,
`Combine`, `ChildAction` and `SoloAction` (the implementation lives outside the
provided sources).  `Prefetch(block)` is modelled as the boolean field
`doPrefetch`. -/
structure Action where
  doPrefetch : Bool
  sync : Bool
  deepSync : Bool
  stopWhenFull : Bool
  cacheType : Nat
deriving DecidableEq, Repr

/-- Modelled from the spec: `Combine` is the monotone join of two actions. -/
def Action.combine (a b : Action) : Action :=
  { doPrefetch := a.doPrefetch || b.doPrefetch
    sync := a.sync || b.sync
    deepSync := a.deepSync || b.deepSync
    stopWhenFull := a.stopWhenFull || b.stopWhenFull
    cacheType := max a.cacheType b.cacheType }

/-- Modelled from the spec: `ChildAction` derives the action for the children of
a block; its policy content does not matter for the claims, so it is the
identity. -/
def Action.childAction (a : Action) (_b : Block) : Action := a

/-- Modelled from the spec: `SoloAction` strips the child-prefetch side effect;
solo-ness is recorded in the effect constructor, so this is the identity. -/
def Action.soloAction (a : Action) : Action := a

/-- A `prefetchRequest`: the target pointer, the empty block shell, priority,
prefetch status, action, and whether the `sendCh` wait-channel field is set
(the reply itself is recorded as an effect).  The opaque `kmd` and `lifetime`
fields are pass-through and omitted. -/
structure PrefetchRequest where
  ptr : BlockPointer
  block : Block
  priority : Int
  prefetchStatus : PrefetchStatus
  action : Action
  sendToCh : Bool
deriving DecidableEq, Repr

/-- An active `prefetch` record.  `req` is a nullable pointer in Go, hence
`Option`; `parents` maps each ref nonce to the set of parent pointers. -/
structure Prefetch where
  subtreeBlockCount : Int
  subtreeTriggered : Bool
  req : Option PrefetchRequest
  parents : List (RefNonce × List BlockPointer)
deriving DecidableEq, Repr

/-- A `rescheduledPrefetch`: the remaining backoff durations (`[]` means the
backoff returns `Stop`) and the armed timer, carrying the request the timer
will re-submit. -/
structure RescheduledPrefetch where
  off : List Int
  timer : Option PrefetchRequest
deriving DecidableEq, Repr

/-- The worker-owned state: the active prefetch map and the rescheduled map. -/
structure PrefState where
  prefetches : List (BlockID × Prefetch)
  rescheduled : List (BlockID × RescheduledPrefetch)
deriving DecidableEq, Repr

/-- The empty worker state. -/
def emptyState : PrefState := ⟨[], []⟩

/-- Observable calls the worker makes to its collaborators. -/
inductive Effect
  | fetchSolo (ptr : BlockPointer)
  | fetchChild (ptr : BlockPointer) (action : Action) (priority : Int)
  | putCaches (ptr : BlockPointer) (status : PrefetchStatus)
  | sendWait (id : BlockID) (active : Bool)
  | closeW (id : BlockID)
  | rescheduleReq (req : PrefetchRequest)
deriving DecidableEq, Repr

/-- External collaborators: the retriever (an in-loop fetch either fails or
returns the block's content), the disk cache (`none` models a
`DoesCacheHaveSpace` error), and the backoff constructor. -/
structure Env where
  fetchResult : BlockPointer → Option Block
  hasDiskCache : Bool
  cacheHasSpace : Nat → Option Bool
  newBackoff : List Int

/-- Association-list lookup. -/
def findV {α β : Type} [DecidableEq α] : List (α × β) → α → Option β
  | [], _ => none
  | (k, v) :: rest, a => if k = a then some v else findV rest a

/-- Association-list insert/overwrite, keeping the position of an existing key. -/
def setV {α β : Type} [DecidableEq α] : List (α × β) → α → β → List (α × β)
  | [], a, b => [(a, b)]
  | (k, v) :: rest, a, b => if k = a then (a, b) :: rest else (k, v) :: setV rest a b

/-- Association-list removal of a key. -/
def eraseV {α β : Type} [DecidableEq α] : List (α × β) → α → List (α × β)
  | [], _ => []
  | (k, v) :: rest, a => if k = a then eraseV rest a else (k, v) :: eraseV rest a

/-- Whether the map has the key. -/
def hasV {α β : Type} [DecidableEq α] (m : List (α × β)) (a : α) : Bool :=
  (findV m a).isSome

/-- A fresh prefetch record, as built by `newPrefetch`. -/
def newPrefetchRec (count : Int) (triggered : Bool) (req : PrefetchRequest) : Prefetch :=
  { subtreeBlockCount := count
    subtreeTriggered := triggered
    req := some req
    parents := [] }

/-- `clearRescheduleState`: stop and clear the timer of a rescheduled block, if
any.  The entry itself stays in the rescheduled map. -/
def clearRescheduleState (st : PrefState) (blockID : BlockID) : PrefState :=
  match findV st.rescheduled blockID with
  | none => st
  | some rp =>
    { st with rescheduled := setV st.rescheduled blockID { rp with timer := none } }

/-- The node function of `completePrefetch`: subtract `numBlocks` from the
record's `subtreeBlockCount`; below zero panics; a nil `req` panics; exactly at
zero the record is removed from both maps, a solo fetch of the block is
re-issued and, if that fetch succeeds, the block is written to the caches with
status `FinishedPrefetch`; the deferred `Close` fires last. -/
def completePrefetch (env : Env) (numBlocks : Int) (blockID : BlockID)
    (st : PrefState) : Except String (PrefState × List Effect) :=
  match findV st.prefetches blockID with
  | none => .ok (st, [])
  | some pp =>
    let count := pp.subtreeBlockCount - numBlocks
    if count < 0 then
      .error "completePrefetch overstepped its bounds"
    else
      match pp.req with
      | none => .error "completePrefetch got a nil req"
      | some r =>
        if count = 0 then
          let st1 : PrefState := { st with prefetches := eraseV st.prefetches blockID }
          let st2 := clearRescheduleState st1 blockID
          let st3 : PrefState := { st2 with rescheduled := eraseV st2.rescheduled blockID }
          match env.fetchResult r.ptr with
          | none =>
            .ok (st3, [Effect.fetchSolo r.ptr, Effect.closeW blockID])
          | some _ =>
            .ok (st3, [Effect.fetchSolo r.ptr,
                       Effect.putCaches r.ptr PrefetchStatus.finishedPrefetch,
                       Effect.closeW blockID])
        else
          let pm := setV st.prefetches blockID { pp with subtreeBlockCount := count }
          .ok ({ st with prefetches := pm }, [])

/-- The node function `decrementPrefetch`: decrement the count by one, panicking
if it would go negative. -/
def decrementPrefetch (blockID : BlockID) (st : PrefState) :
    Except String (PrefState × List Effect) :=
  match findV st.prefetches blockID with
  | none => .ok (st, [])
  | some pp =>
    let count := pp.subtreeBlockCount - 1
    if count < 0 then
      .error "decrementPrefetch overstepped its bounds"
    else
      let pm := setV st.prefetches blockID { pp with subtreeBlockCount := count }
      .ok ({ st with prefetches := pm }, [])

/-- The node function `cancelPrefetch`: drop the record's parent bucket for the
pointer's ref nonce; if no parents remain, remove the record from the active
map, close it, and clear and remove its reschedule state. -/
def cancelPrefetch (ptr : BlockPointer) (st : PrefState) :
    Except String (PrefState × List Effect) :=
  match findV st.prefetches ptr.id with
  | none => .ok (st, [])
  | some pp =>
    let parents := eraseV pp.parents ptr.refNonce
    if parents.length > 0 then
      .ok ({ st with prefetches := setV st.prefetches ptr.id { pp with parents := parents } }, [])
    else
      let st1 : PrefState := { st with prefetches := eraseV st.prefetches ptr.id }
      let st2 := clearRescheduleState st1 ptr.id
      .ok ({ st2 with rescheduled := eraseV st2.rescheduled ptr.id }, [Effect.closeW ptr.id])

/-- Cancel every ref-nonce chain of a non-top block, as the parents loop of
`rescheduleTopBlock` does. -/
def cancelRefNonces (blockID : BlockID) :
    List (RefNonce × List BlockPointer) → PrefState →
    Except String (PrefState × List Effect)
  | [], st => .ok (st, [])
  | (nonce, _) :: rest, st =>
    match cancelPrefetch ⟨blockID, nonce⟩ st with
    | .error e => .error e
    | .ok (st1, effs1) =>
      match cancelRefNonces blockID rest st1 with
      | .error e => .error e
      | .ok (st2, effs2) => .ok (st2, effs1 ++ effs2)

/-- The node function `rescheduleTopBlock`: a block with parents is cancelled
instead; a top block is removed from the active map and closed, its reschedule
record is created if missing, and unless a timer is already armed, the next
backoff duration is taken — `Stop` (an exhausted backoff) leaves the block in
the rescheduled map with no timer, otherwise a timer carrying a copy of the
request is armed. -/
def rescheduleTopBlock (env : Env) (blockID : BlockID) (st : PrefState) :
    Except String (PrefState × List Effect) :=
  match findV st.prefetches blockID with
  | none => .ok (st, [])
  | some pp =>
    if pp.parents.length > 0 then
      cancelRefNonces blockID pp.parents st
    else
      let st1 : PrefState := { st with prefetches := eraseV st.prefetches blockID }
      let effs := [Effect.closeW blockID]
      let rpSt : RescheduledPrefetch × PrefState :=
        match findV st1.rescheduled blockID with
        | some rp => (rp, st1)
        | none =>
          let rp : RescheduledPrefetch := { off := env.newBackoff, timer := none }
          (rp, { st1 with rescheduled := setV st1.rescheduled blockID rp })
      let rp := rpSt.1
      let st2 := rpSt.2
      if rp.timer.isSome then
        .ok (st2, effs)
      else
        match pp.req with
        | none => .error "nil request dereference in rescheduleTopBlock"
        | some r =>
          match rp.off with
          | [] => .ok (st2, effs)
          | _ :: rest =>
            let rm := setV st2.rescheduled blockID { off := rest, timer := some r }
            .ok ({ st2 with rescheduled := rm }, effs)

/-- A function applied to each node of a walk, returning the updated state and
the effects it caused. -/
def NodeFn : Type := BlockID → PrefState → Except String (PrefState × List Effect)

/-- Remove one parent pointer from a record's bucket for a ref nonce (the walk
prunes parent pointers whose records have disappeared from the active map). -/
def removeParentPtr (st : PrefState) (blockID : BlockID) (nonce : RefNonce)
    (pptr : BlockPointer) : PrefState :=
  match findV st.prefetches blockID with
  | none => st
  | some pp =>
    match findV pp.parents nonce with
    | none => st
    | some ps =>
      let pm := setV st.prefetches blockID
        { pp with parents := setV pp.parents nonce (ps.erase pptr) }
      { st with prefetches := pm }

/-- Delete a record's bucket for a ref nonce when the bucket has become empty. -/
def cleanupEmptyBucket (st : PrefState) (blockID : BlockID) (nonce : RefNonce) : PrefState :=
  match findV st.prefetches blockID with
  | none => st
  | some pp =>
    match findV pp.parents nonce with
    | none => st
    | some ps =>
      if ps.isEmpty then
        let pm := setV st.prefetches blockID { pp with parents := eraseV pp.parents nonce }
        { st with prefetches := pm }
      else st

/-- Work items of `applyToParentsRecursive`: visit a node, iterate its ref-nonce
buckets, or iterate the pointers of one bucket. -/
inductive WalkTask
  | node (blockID : BlockID)
  | buckets (blockID : BlockID) (bs : List (RefNonce × List BlockPointer))
  | ptrList (blockID : BlockID) (nonce : RefNonce) (ps : List BlockPointer)

/-- Fueled interpreter of `applyToParentsRecursive`: descend into each live
parent (pruning dead parent pointers and empty buckets), then apply `f` to the
current node.  Running out of fuel is an error; every concrete trace in this
development uses ample fuel. -/
def walkAux (f : NodeFn) : Nat → WalkTask → PrefState →
    Except String (PrefState × List Effect)
  | 0, _, _ => .error "walk fuel exhausted"
  | fuel + 1, .node blockID, st =>
    match findV st.prefetches blockID with
    | none => f blockID st
    | some pp =>
      match walkAux f fuel (.buckets blockID pp.parents) st with
      | .error e => .error e
      | .ok (st1, effs1) =>
        match f blockID st1 with
        | .error e => .error e
        | .ok (st2, effs2) => .ok (st2, effs1 ++ effs2)
  | _ + 1, .buckets _ [], st => .ok (st, [])
  | fuel + 1, .buckets blockID ((nonce, ps) :: rest), st =>
    match walkAux f fuel (.ptrList blockID nonce ps) st with
    | .error e => .error e
    | .ok (st1, effs1) =>
      let st1 := cleanupEmptyBucket st1 blockID nonce
      match walkAux f fuel (.buckets blockID rest) st1 with
      | .error e => .error e
      | .ok (st2, effs2) => .ok (st2, effs1 ++ effs2)
  | _ + 1, .ptrList _ _ [], st => .ok (st, [])
  | fuel + 1, .ptrList blockID nonce (pptr :: rest), st =>
    if hasV st.prefetches pptr.id then
      match walkAux f fuel (.node pptr.id) st with
      | .error e => .error e
      | .ok (st1, effs1) =>
        match walkAux f fuel (.ptrList blockID nonce rest) st1 with
        | .error e => .error e
        | .ok (st2, effs2) => .ok (st2, effs1 ++ effs2)
    else
      walkAux f fuel (.ptrList blockID nonce rest) (removeParentPtr st blockID nonce pptr)

/-- `applyToParentsRecursive f blockID`: post-order walk over all parents with
any ref nonce, then `f` at the node itself. -/
def applyToParentsRecursive (f : NodeFn) (fuel : Nat) (blockID : BlockID)
    (st : PrefState) : Except String (PrefState × List Effect) :=
  walkAux f fuel (.node blockID) st

/-- A per-pointer node function for the ref-nonce-restricted walk. -/
def PtrNodeFn : Type := BlockPointer → PrefState → Except String (PrefState × List Effect)

/-- Work items of `applyToPtrParentsRecursive`. -/
inductive PtrWalkTask
  | node (ptr : BlockPointer)
  | ptrList (ptr : BlockPointer) (ps : List BlockPointer)

/-- Fueled interpreter of `applyToPtrParentsRecursive`: like the full walk but
restricted to the bucket of the pointer's own ref nonce at every node. -/
def walkPtrAux (f : PtrNodeFn) : Nat → PtrWalkTask → PrefState →
    Except String (PrefState × List Effect)
  | 0, _, _ => .error "walk fuel exhausted"
  | fuel + 1, .node ptr, st =>
    match findV st.prefetches ptr.id with
    | none => f ptr st
    | some pp =>
      let bucket := (findV pp.parents ptr.refNonce).getD []
      match walkPtrAux f fuel (.ptrList ptr bucket) st with
      | .error e => .error e
      | .ok (st1, effs1) =>
        let st1 := cleanupEmptyBucket st1 ptr.id ptr.refNonce
        match f ptr st1 with
        | .error e => .error e
        | .ok (st2, effs2) => .ok (st2, effs1 ++ effs2)
  | _ + 1, .ptrList _ [], st => .ok (st, [])
  | fuel + 1, .ptrList ptr (pptr :: rest), st =>
    if hasV st.prefetches pptr.id then
      match walkPtrAux f fuel (.node pptr) st with
      | .error e => .error e
      | .ok (st1, effs1) =>
        match walkPtrAux f fuel (.ptrList ptr rest) st1 with
        | .error e => .error e
        | .ok (st2, effs2) => .ok (st2, effs1 ++ effs2)
    else
      walkPtrAux f fuel (.ptrList ptr rest) (removeParentPtr st ptr.id ptr.refNonce pptr)

/-- `applyToPtrParentsRecursive f ptr`: post-order walk over the parents
reachable via the pointer's ref nonce, then `f` at the pointer itself. -/
def applyToPtrParentsRecursive (f : PtrNodeFn) (fuel : Nat) (ptr : BlockPointer)
    (st : PrefState) : Except String (PrefState × List Effect) :=
  walkPtrAux f fuel (.node ptr) st

/-- `calculatePriority`: always the base priority minus one; the action argument
is ignored. -/
def calculatePriority (basePriority : Int) (_action : Action) : Int :=
  basePriority - 1

/-- Result of one child `request` call: the `numBlocks` contribution, the
updated `idsSeen` set, and the updated state and effects. -/
structure ChildResult where
  numBlocks : Int
  seen : List BlockID
  st : PrefState
  effs : List Effect
deriving Repr

/-- The child-enumeration `request` function: skip IDs already seen in this
enumeration; create a waiting record with count 1 for an unknown child; issue a
(non-solo) fetch when the prefetch is new or the combined action changed; panic
when the parent is not in the active map; record the parent edge under the
child's ref nonce and return the child's `subtreeBlockCount` exactly when the
edge is newly added or the parent record is new, else 0. -/
def requestChild (priority : Int) (ptr : BlockPointer) (block : Block)
    (parentPtr : BlockPointer) (isParentNew : Bool) (action : Action)
    (seen : List BlockID) (st : PrefState) : Except String ChildResult :=
  if seen.contains ptr.id then
    .ok ⟨0, seen, st, []⟩
  else
    let seen := ptr.id :: seen
    let wait : Prefetch × Bool × PrefState :=
      match findV st.prefetches ptr.id with
      | some pre => (pre, true, st)
      | none =>
        let req : PrefetchRequest :=
          ⟨ptr, block, priority, PrefetchStatus.noPrefetch, action, false⟩
        let pre := newPrefetchRec 1 false req
        (pre, false, { st with prefetches := setV st.prefetches ptr.id pre })
    let pre := wait.1
    let isPrefetchWaiting := wait.2.1
    let st := wait.2.2
    match pre.req with
    | none => .error "nil request dereference in child request"
    | some preReq =>
      let newAction := action.combine preReq.action
      let trig : Prefetch × PrefState × List Effect :=
        if !isPrefetchWaiting || preReq.action ≠ newAction then
          let pre1 := { pre with req := some { preReq with action := newAction } }
          (pre1, { st with prefetches := setV st.prefetches ptr.id pre1 },
           [Effect.fetchChild ptr action priority])
        else
          (pre, st, [])
      let pre := trig.1
      let st := trig.2.1
      let effs := trig.2.2
      if hasV st.prefetches parentPtr.id then
        let bucket := (findV pre.parents ptr.refNonce).getD []
        let edgePresent := bucket.contains parentPtr
        if !edgePresent || isParentNew then
          let bucket1 := if edgePresent then bucket else parentPtr :: bucket
          let pre1 := { pre with parents := setV pre.parents ptr.refNonce bucket1 }
          let st1 : PrefState :=
            { st with prefetches := setV st.prefetches ptr.id pre1 }
          .ok ⟨pre.subtreeBlockCount, seen, st1, effs⟩
        else
          .ok ⟨0, seen, st, effs⟩
      else
        .error "prefetcher does not know about parent block"

/-- The loop body shared by `prefetchIndirectFileBlock` and
`prefetchIndirectDirBlock`: request each indirect pointer, threading `idsSeen`
and summing the contributions. -/
def prefetchIndirectPtrs (priority : Int) (parentPtr : BlockPointer)
    (shell : Block) (isParentNew : Bool) (action : Action) :
    List BlockPointer → List BlockID → PrefState →
    Except String (Int × List BlockID × PrefState × List Effect)
  | [], seen, st => .ok (0, seen, st, [])
  | ptr :: rest, seen, st =>
    match requestChild priority ptr shell parentPtr isParentNew action seen st with
    | .error e => .error e
    | .ok c =>
      match prefetchIndirectPtrs priority parentPtr shell isParentNew action rest c.seen c.st with
      | .error e => .error e
      | .ok (n, seen2, st2, effs2) => .ok (c.numBlocks + n, seen2, st2, c.effs ++ effs2)

/-- `prefetchIndirectFileBlock` / `prefetchIndirectDirBlock`: request every
indirect pointer with a same-shape empty shell; the block is a tail exactly
when it has no indirect pointers. -/
def prefetchIndirectBlock (basePriority : Int) (parentPtr : BlockPointer)
    (shell : Block) (isParentNew : Bool) (action : Action)
    (iptrs : List BlockPointer) (st : PrefState) :
    Except String (Int × Bool × List BlockID × PrefState × List Effect) :=
  let newPriority := calculatePriority basePriority action
  match prefetchIndirectPtrs newPriority parentPtr shell isParentNew action iptrs [] st with
  | .error e => .error e
  | .ok (n, seen, st1, effs) => .ok (n, iptrs.isEmpty, seen, st1, effs)

/-- Modelled from the spec: the comparator `dirEntriesBySizeAsc` (outside the
provided sources) orders direct-directory children by ascending entry size;
modelled as an insertion sort. -/
def insertBySize (e : DirEntry) : List DirEntry → List DirEntry
  | [] => [e]
  | x :: xs => if e.size ≤ x.size then e :: x :: xs else x :: insertBySize e xs

/-- Modelled from the spec: sort direct-directory children by ascending size. -/
def sortBySizeAsc (l : List DirEntry) : List DirEntry :=
  l.foldr insertBySize []

/-- The empty shell allocated for a directory child of the given entry type
(`Dir` children get a `DirBlock`, `File` and `Exec` children a `FileBlock`). -/
def shellFor : EntryType → Block
  | .dir => Block.dirBlock false [] []
  | _ => Block.fileBlock false []

/-- The entry loop of `prefetchDirectDirBlock`: symbolic links and unknown
entry types are skipped; other entries are counted and requested.  Returns the
summed `numBlocks`, the count of processed entries, and the threaded state. -/
def prefetchDirEntries (priority : Int) (parentPtr : BlockPointer)
    (isParentNew : Bool) (action : Action) :
    List DirEntry → Nat → List BlockID → PrefState →
    Except String (Int × Nat × List BlockID × PrefState × List Effect)
  | [], total, seen, st => .ok (0, total, seen, st, [])
  | e :: rest, total, seen, st =>
    if e.entryType.prefetchable then
      match requestChild priority e.ptr (shellFor e.entryType) parentPtr isParentNew action seen st with
      | .error er => .error er
      | .ok c =>
        match prefetchDirEntries priority parentPtr isParentNew action rest (total + 1) c.seen c.st with
        | .error er => .error er
        | .ok (n, t2, seen2, st2, effs2) => .ok (c.numBlocks + n, t2, seen2, st2, c.effs ++ effs2)
    else
      prefetchDirEntries priority parentPtr isParentNew action rest total seen st

/-- `prefetchDirectDirBlock`: sort the children by ascending size, request the
prefetchable ones, and report a tail exactly when no child entry was
processed. -/
def prefetchDirectDirBlock (basePriority : Int) (parentPtr : BlockPointer)
    (isParentNew : Bool) (action : Action) (children : List DirEntry)
    (st : PrefState) :
    Except String (Int × Bool × List BlockID × PrefState × List Effect) :=
  let newPriority := calculatePriority basePriority action
  match prefetchDirEntries newPriority parentPtr isParentNew action
      (sortBySizeAsc children) 0 [] st with
  | .error e => .error e
  | .ok (n, total, seen, st1, effs) => .ok (n, decide (total = 0), seen, st1, effs)

/-- `handlePrefetch`: dispatch on the block shape to enumerate children.  The
inner `Option` is `none` for the `unknown block type` error, which the caller
logs and skips (it is not a panic). -/
def handlePrefetch (pre : Prefetch) (isPrefetchNew : Bool) (action : Action)
    (b : Block) (st : PrefState) :
    Except String (PrefState × List Effect × Option (Int × Bool)) :=
  match pre.req with
  | none => .error "nil request dereference in handlePrefetch"
  | some req =>
    let childAction := action.childAction b
    match b with
    | .fileBlock true iptrs =>
      match prefetchIndirectBlock req.priority req.ptr (Block.fileBlock false [])
          isPrefetchNew childAction iptrs st with
      | .error e => .error e
      | .ok (n, isTail, _, st1, effs) => .ok (st1, effs, some (n, isTail))
    | .fileBlock false _ => .ok (st, [], some (0, true))
    | .dirBlock true iptrs _ =>
      match prefetchIndirectBlock req.priority req.ptr (Block.dirBlock false [] [])
          isPrefetchNew childAction iptrs st with
      | .error e => .error e
      | .ok (n, isTail, _, st1, effs) => .ok (st1, effs, some (n, isTail))
    | .dirBlock false _ children =>
      match prefetchDirectDirBlock req.priority req.ptr isPrefetchNew childAction
          children st with
      | .error e => .error e
      | .ok (n, isTail, _, st1, effs) => .ok (st1, effs, some (n, isTail))
    | .commonBlock => .ok (st, [], none)

/-- `stopIfNeeded`: with no disk cache, a space-query error, or room available,
handling continues; with no room and a `Sync` action the request is rescheduled
and handling stops; otherwise handling stops exactly when the action says to
stop when full. -/
def stopIfNeeded (env : Env) (req : PrefetchRequest) : Bool × List Effect :=
  if !env.hasDiskCache then
    (false, [])
  else
    match env.cacheHasSpace req.action.cacheType with
    | none => (false, [])
    | some true => (false, [])
    | some false =>
      if req.action.sync then
        (true, [Effect.rescheduleReq req])
      else
        (req.action.stopWhenFull, [])

/-- Apply an update to the active record of a block, when present (Go mutates
through the record pointer, which aliases the map entry while it is there). -/
def updatePre (st : PrefState) (blockID : BlockID) (f : Prefetch → Prefetch) : PrefState :=
  match findV st.prefetches blockID with
  | none => st
  | some p => { st with prefetches := setV st.prefetches blockID (f p) }

/-- Update the combined action stored on a record's request, when the record is
still in the active map. -/
def updateReqAction (st : PrefState) (blockID : BlockID) (a : Action) : PrefState :=
  updatePre st blockID
    (fun p => { p with req := p.req.map (fun r => { r with action := a }) })

/-- The first step of the request handler: if the block already has a record
whose `req` pointer is nil, install the incoming request on it. -/
def backfillReqState (req : PrefetchRequest) (st : PrefState) : PrefState :=
  match findV st.prefetches req.ptr.id with
  | some pre =>
    if pre.req.isNone then
      { st with prefetches := setV st.prefetches req.ptr.id { pre with req := some req } }
    else st
  | none => st

/-- The tail of the request handler once a prefetch record is in hand: run
`handlePrefetch`; an `unknown block type` error is logged and skipped; a tail
completes up the tree with 0; a zero `numBlocks` is a no-op; otherwise the new
root is (re-)registered if needed and `numBlocks` is added to every ancestor. -/
def finishTrigger (env : Env) (fuel : Nat) (req : PrefetchRequest) (b : Block)
    (isPrefetchWaiting : Bool) (preL : Prefetch) (st : PrefState)
    (effsAcc : List Effect) : Except String (PrefState × List Effect) :=
  match handlePrefetch preL (!isPrefetchWaiting) req.action b st with
  | .error e => .error e
  | .ok (st1, effsH, none) => .ok (st1, effsAcc ++ effsH)
  | .ok (st1, effsH, some (numBlocks, isTail)) =>
    if isTail then
      match applyToParentsRecursive (completePrefetch env 0) fuel req.ptr.id st1 with
      | .error e => .error e
      | .ok (st2, effs2) => .ok (st2, effsAcc ++ effsH ++ effs2)
    else if numBlocks = 0 then
      .ok (st1, effsAcc ++ effsH)
    else
      let st2 :=
        if !isPrefetchWaiting && !(hasV st1.prefetches req.ptr.id) then
          { st1 with prefetches := setV st1.prefetches req.ptr.id preL }
        else st1
      let addF : NodeFn := fun blockID s =>
        match findV s.prefetches blockID with
        | none => .ok (s, [])
        | some pp =>
          let pm := setV s.prefetches blockID
            { pp with subtreeBlockCount := pp.subtreeBlockCount + numBlocks }
          .ok ({ s with prefetches := pm }, [])
      match applyToParentsRecursive addF fuel req.ptr.id st2 with
      | .error e => .error e
      | .ok (st3, effs3) => .ok (st3, effsAcc ++ effsH ++ effs3)

/-- One iteration of the worker loop on a prefetch request (the
`prefetchRequestCh` case of `run`): back-fill a missing `req` on the record,
clear the reschedule timer, serve a wait-channel query, issue the solo
retrieval, then run the finished/tail check, the action filter, the redundancy
filter, the cache-pressure gate, the active-or-new bookkeeping and the child
enumeration. -/
def handleRequestEvent (env : Env) (fuel : Nat) (req : PrefetchRequest)
    (st : PrefState) : Except String (PrefState × List Effect) :=
  let st := backfillReqState req st
  let preOpt := findV st.prefetches req.ptr.id
  let isPrefetchWaiting := preOpt.isSome
  let st := clearRescheduleState st req.ptr.id
  if req.sendToCh then
    .ok (st, [Effect.sendWait req.ptr.id isPrefetchWaiting])
  else
    match env.fetchResult req.ptr with
    | none => .ok (st, [Effect.fetchSolo req.ptr])
    | some b =>
      let effs0 := [Effect.fetchSolo req.ptr]
      if req.prefetchStatus = PrefetchStatus.finishedPrefetch || b.isTail then
        match preOpt with
        | some pre =>
          if pre.subtreeBlockCount < 0 then
            .error "the subtreeBlockCount for a block should never be negative"
          else
            match applyToParentsRecursive (completePrefetch env pre.subtreeBlockCount)
                fuel req.ptr.id st with
            | .error e => .error e
            | .ok (st1, effs1) => .ok (st1, effs0 ++ effs1)
        | none =>
          if req.prefetchStatus ≠ PrefetchStatus.finishedPrefetch then
            .ok (st, effs0 ++ [Effect.putCaches req.ptr PrefetchStatus.finishedPrefetch])
          else
            .ok (st, effs0)
      else
      if !req.action.doPrefetch then
        match preOpt with
        | some pre =>
          match pre.req with
          | none => .error "nil request dereference in request handler"
          | some pr =>
            if !pr.action.doPrefetch then
              match applyToPtrParentsRecursive cancelPrefetch fuel req.ptr st with
              | .error e => .error e
              | .ok (st1, effs1) => .ok (st1, effs0 ++ effs1)
            else
              .ok (st, effs0)
        | none => .ok (st, effs0)
      else
      let redundant : Bool :=
        decide (req.prefetchStatus = PrefetchStatus.triggeredPrefetch) &&
        !req.action.deepSync &&
        (match preOpt with
         | some pre =>
           match pre.req with
           | some pr =>
             (req.action.sync == pr.action.sync) &&
             (req.action.stopWhenFull == pr.action.stopWhenFull)
           | none => false
         | none => false)
      if redundant then
        .ok (st, effs0)
      else
      let stopR := stopIfNeeded env req
      if stopR.1 then
        .ok (st, effs0 ++ stopR.2)
      else
        match preOpt with
        | none =>
          let preL := newPrefetchRec 0 true req
          let st1 : PrefState := { st with prefetches := setV st.prefetches req.ptr.id preL }
          finishTrigger env fuel req b false preL st1 effs0
        | some pre =>
          match pre.req with
          | none => .error "nil request dereference in request handler"
          | some pr =>
            let newAction := pr.action.combine req.action
            if pre.subtreeTriggered then
              match (if pre.subtreeBlockCount = 0 then
                       applyToPtrParentsRecursive cancelPrefetch fuel req.ptr st
                     else .ok (st, [])) with
              | .error e => .error e
              | .ok (st1, effs1) =>
                if newAction ≠ pr.action then
                  let st2 := updateReqAction st1 req.ptr.id newAction
                  let preL := { pre with req := some { pr with action := newAction } }
                  finishTrigger env fuel req b true preL st2 (effs0 ++ effs1)
                else
                  .ok (st1, effs0 ++ effs1)
            else
              if pre.subtreeBlockCount = 0 then
                .error "prefetch was in the tree, was not triggered, but had a block count of 0"
              else
                match applyToParentsRecursive decrementPrefetch fuel req.ptr.id st with
                | .error e => .error e
                | .ok (st1, effs1) =>
                  let upd : Prefetch → Prefetch := fun p =>
                    { p with subtreeTriggered := true,
                             req := some { pr with action := newAction } }
                  let preL := upd ((findV st1.prefetches req.ptr.id).getD pre)
                  let st2 := updatePre st1 req.ptr.id upd
                  finishTrigger env fuel req b true preL st2 (effs0 ++ effs1)

/-- One iteration of the worker loop on a cancellation (the `prefetchCancelCh`
case of `run`): nothing to do for an unknown block, else cancel up the
ref-nonce-restricted ancestor chain. -/
def handleCancelEvent (fuel : Nat) (ptr : BlockPointer) (st : PrefState) :
    Except String (PrefState × List Effect) :=
  match findV st.prefetches ptr.id with
  | none => .ok (st, [])
  | some _ => applyToPtrParentsRecursive cancelPrefetch fuel ptr st

/-- One iteration of the worker loop on a reschedule (the
`prefetchRescheduleCh` case of `run`): insert a placeholder record with count 1
if the block is unknown (else refresh its request), then walk the parents with
`rescheduleTopBlock`. -/
def handleRescheduleEvent (env : Env) (fuel : Nat) (req : PrefetchRequest)
    (st : PrefState) : Except String (PrefState × List Effect) :=
  let st1 : PrefState :=
    match findV st.prefetches req.ptr.id with
    | none =>
      { st with prefetches := setV st.prefetches req.ptr.id (newPrefetchRec 1 false req) }
    | some pre =>
      { st with prefetches := setV st.prefetches req.ptr.id { pre with req := some req } }
  applyToParentsRecursive (rescheduleTopBlock env) fuel req.ptr.id st1

/-- An event dequeued by the worker loop. -/
inductive Event
  | request (req : PrefetchRequest)
  | cancel (ptr : BlockPointer)
  | reschedule (req : PrefetchRequest)

/-- One worker-loop iteration. -/
def runStep (env : Env) (fuel : Nat) : Event → PrefState →
    Except String (PrefState × List Effect)
  | .request req, st => handleRequestEvent env fuel req st
  | .cancel ptr, st => handleCancelEvent fuel ptr st
  | .reschedule req, st => handleRescheduleEvent env fuel req st

/-- Run a sequence of worker-loop iterations, accumulating effects. -/
def runTrace (env : Env) (fuel : Nat) : List Event → PrefState →
    Except String (PrefState × List Effect)
  | [], st => .ok (st, [])
  | e :: rest, st =>
    match runStep env fuel e st with
    | .error er => .error er
    | .ok (st1, effs1) =>
      match runTrace env fuel rest st1 with
      | .error er => .error er
      | .ok (st2, effs2) => .ok (st2, effs1 ++ effs2)

/-- The state of a non-panicking outcome (the empty state for a panic). -/
def stateAfter (r : Except String (PrefState × List Effect)) : PrefState :=
  match r with
  | .ok (st, _) => st
  | .error _ => emptyState

/-- The effects of a non-panicking outcome. -/
def effectsAfter (r : Except String (PrefState × List Effect)) : List Effect :=
  match r with
  | .ok (_, effs) => effs
  | .error _ => []

/-- Whether the outcome did not panic. -/
def isOkR (r : Except String (PrefState × List Effect)) : Bool :=
  match r with
  | .ok _ => true
  | .error _ => false

/-- Whether any fallible computation did not panic. -/
def isOkE {α : Type} (r : Except String α) : Bool :=
  match r with
  | .ok _ => true
  | .error _ => false

/-- The `numBlocks` contribution of a child request (−1 for a panic). -/
def numBlocksOfR (r : Except String ChildResult) : Int :=
  match r with
  | .ok c => c.numBlocks
  | .error _ => -1

/-- Whether an effect is a (non-solo) child fetch, i.e. evidence that child
enumeration happened. -/
def Effect.isFetchChild : Effect → Bool
  | .fetchChild _ _ _ => true
  | _ => false

/-- The cache-pressure gate transcribed from the claim's wording, for
comparison with the embedded `stopIfNeeded`: no room with a `Sync` action
reschedules and aborts; no room, non-`Sync`, stop-when-full aborts silently;
every other case (room, no disk cache, or a space-query error) continues. -/
def stopIfNeededSpec (env : Env) (req : PrefetchRequest) : Bool × List Effect :=
  if env.hasDiskCache then
    match env.cacheHasSpace req.action.cacheType with
    | some false =>
      if req.action.sync then (true, [Effect.rescheduleReq req])
      else if req.action.stopWhenFull then (true, [])
      else (false, [])
    | _ => (false, [])
  else (false, [])

/-- Outcome of a `WaitChannelForBlockPrefetch` call. -/
inductive WaitOutcome
  | gotCh
  | errShutdown
  | errCtx
deriving DecidableEq, Repr

/-- The case a Go `select` commits to in the public API methods.  A `select`
chooses pseudo-randomly among the *ready* cases, so after shutdown both the
send on the unbounded event channel and the receive from the closed shutdown
channel are ready. -/
inductive SelectBranch
  | enqueue
  | shutdownObserved
  | ctxObserved
deriving DecidableEq, Repr

/-- The scheduler-controlled inputs of one `WaitChannelForBlockPrefetch` call:
whether the shutdown channel is closed and the caller context done, which
ready case each of the two selects commits to, and whether the worker's reply
has arrived by the time the second select runs (the worker keeps draining the
request queue while shutting down, so a reply after shutdown is possible). -/
structure WaitSchedule where
  shutdownClosed : Bool
  ctxDone : Bool
  firstPick : SelectBranch
  replyReady : Bool
  secondPick : SelectBranch
deriving DecidableEq, Repr

/-- Whether the first select's pick is a ready case: the send on the unbounded
`prefetchRequestCh` is always ready; the shutdown / ctx receives are ready
exactly when closed / done. -/
def WaitSchedule.firstValid (s : WaitSchedule) : Bool :=
  match s.firstPick with
  | .enqueue => true
  | .shutdownObserved => s.shutdownClosed
  | .ctxObserved => s.ctxDone

/-- Whether the second select's pick is a ready case: the reply receive is
ready exactly when the worker has replied. -/
def WaitSchedule.secondValid (s : WaitSchedule) : Bool :=
  match s.secondPick with
  | .enqueue => s.replyReady
  | .shutdownObserved => s.shutdownClosed
  | .ctxObserved => s.ctxDone

/-- `WaitChannelForBlockPrefetch` as a function of the schedule: the first
select either returns an error or enqueues the wait request; the second select
returns the received channel or an error.  `none` marks an impossible schedule
(a pick that is not ready).  The returned Bool says whether the request was
enqueued. -/
def waitChannelForBlockPrefetch (s : WaitSchedule) : Option (WaitOutcome × Bool) :=
  if !s.firstValid then none
  else
    match s.firstPick with
    | .shutdownObserved => some (.errShutdown, false)
    | .ctxObserved => some (.errCtx, false)
    | .enqueue =>
      if !s.secondValid then none
      else
        match s.secondPick with
        | .enqueue => some (.gotCh, true)
        | .shutdownObserved => some (.errShutdown, true)
        | .ctxObserved => some (.errCtx, true)

/-- `CancelPrefetch` as a function of the schedule: its single select either
enqueues the cancellation (always ready on the unbounded channel) or, when the
shutdown channel is closed, logs a warning and returns without enqueuing.
Returns whether the cancellation was enqueued; `none` marks an impossible
schedule. -/
def cancelPrefetchCall (shutdownClosed : Bool) (pick : SelectBranch) : Option Bool :=
  match pick with
  | .enqueue => some true
  | .shutdownObserved => if shutdownClosed then some false else none
  | .ctxObserved => none

/-- A plain action that prefetches, with no sync or stop-when-full policy. -/
def actNormal : Action := ⟨true, false, false, false, 0⟩

/-- A deep-sync action (used to upgrade an action in witnesses). -/
def actSync : Action := ⟨true, true, true, false, 1⟩

/-- Block pointer of the rescheduled-then-reactivated block in the C2 trace. -/
def bPtr : BlockPointer := ⟨1, 0⟩

/-- Block pointer of its directory child. -/
def cPtr : BlockPointer := ⟨2, 0⟩

/-- The content of block 1: a direct directory with one file child. -/
def bContent : Block := Block.dirBlock false [] [⟨cPtr, EntryType.file, 5⟩]

/-- Environment for the C2 trace: the retrieval of block 1 returns `bContent`,
any other block is a direct file block; there is no disk cache; the backoff
yields one delay. -/
def env2 : Env :=
  { fetchResult := fun p => if p.id = 1 then some bContent else some (Block.fileBlock false [])
    hasDiskCache := false
    cacheHasSpace := fun _ => some true
    newBackoff := [100] }

/-- The request for block 1 used by the C2 trace. -/
def reqB : PrefetchRequest :=
  ⟨bPtr, Block.dirBlock false [] [], 10, PrefetchStatus.noPrefetch, actNormal, false⟩

/-- The two-event C2 trace: a reschedule of block 1 (which moves it into the
rescheduled map and arms its timer), then the request its timer re-submits. -/
def c2Trace : List Event := [Event.reschedule reqB, Event.request reqB]

/-- A state in which block 7 sits in the rescheduled map with an armed timer. -/
def st3 : PrefState := ⟨[], [(7, ⟨[], some reqB⟩)]⟩

/-- A wait-channel query (the `sendCh` field set) for block 7. -/
def reqW : PrefetchRequest :=
  ⟨⟨7, 0⟩, Block.fileBlock false [], 0, PrefetchStatus.noPrefetch, actNormal, true⟩

/-- An active, triggered parent record for block 1. -/
def parentRec : Prefetch := newPrefetchRec 3 true reqB

/-- The request of the already-active child record for block 2. -/
def childReq : PrefetchRequest :=
  ⟨cPtr, Block.fileBlock false [], 9, PrefetchStatus.noPrefetch, actNormal, false⟩

/-- A child record for block 2 that already knows the parent edge to block 1. -/
def childRec : Prefetch :=
  { subtreeBlockCount := 5
    subtreeTriggered := false
    req := some childReq
    parents := [(0, [bPtr])] }

/-- A state where both the parent (1) and the child (2) are active and the
parent edge 2→1 is already recorded. -/
def st4 : PrefState := ⟨[(1, parentRec), (2, childRec)], []⟩

/-- A request for block 3 that arrives already marked `FinishedPrefetch`. -/
def reqF : PrefetchRequest :=
  ⟨⟨3, 0⟩, Block.dirBlock false [] [], 10, PrefetchStatus.finishedPrefetch, actNormal, false⟩

/-- Environment whose retrievals all return the (non-tail) directory content. -/
def env5 : Env := { env2 with fetchResult := fun _ => some bContent }

/-- A state whose only active record (block 4) has `subtreeBlockCount = 0`,
satisfying the `subtree_block_count ≥ 0` invariant. -/
def st7 : PrefState :=
  ⟨[(4, { subtreeBlockCount := 0, subtreeTriggered := true, req := some reqB, parents := [] })], []⟩

/-- A parentless active record for block 6. -/
def pw10 : Prefetch :=
  { subtreeBlockCount := 2, subtreeTriggered := false, req := some reqB, parents := [] }

/-- A state with a parentless active record for block 6 whose rescheduled
entry has an exhausted backoff and no armed timer. -/
def st10 : PrefState := ⟨[(6, pw10)], [(6, ⟨[], none⟩)]⟩

/-- Environment whose fresh backoffs are already exhausted (`Stop`). -/
def env10 : Env := { env2 with newBackoff := [] }

/-- The record of block 5 used by witnesses: top-level, count 2. -/
def pw : Prefetch :=
  { subtreeBlockCount := 2, subtreeTriggered := true, req := some reqB, parents := [] }

/-- An active top-level record for block 5, used by witnesses. -/
def st1w : PrefState := ⟨[(5, pw)], []⟩

/-- A schedule in which a post-shutdown wait call enqueues and receives a
reply. -/
def schedGot : WaitSchedule :=
  ⟨true, false, SelectBranch.enqueue, true, SelectBranch.enqueue⟩

/-- A schedule whose first select takes the shutdown branch. -/
def schedShut : WaitSchedule :=
  ⟨true, false, SelectBranch.shutdownObserved, false, SelectBranch.enqueue⟩

/-- A request for the active top-level block 5, already marked finished. -/
def reqF5 : PrefetchRequest :=
  ⟨⟨5, 0⟩, Block.fileBlock false [], 10, PrefetchStatus.finishedPrefetch, actNormal, false⟩

/-- Directory children of mixed entry types used by the C8 witness. -/
def c8kids : List DirEntry :=
  [⟨⟨21, 0⟩, EntryType.file, 7⟩, ⟨⟨22, 0⟩, EntryType.sym, 1⟩, ⟨⟨23, 0⟩, EntryType.dir, 3⟩]

/-- The state after the non-zero branch of `completePrefetch`: only the
record's count changed. -/
def decrementedState (st : PrefState) (blockID : BlockID) (pp : Prefetch) (n : Int) :
    PrefState :=
  let pm := setV st.prefetches blockID { pp with subtreeBlockCount := pp.subtreeBlockCount - n }
  { st with prefetches := pm }

theorem findV_eraseV_self {α β : Type} [DecidableEq α] (m : List (α × β)) (a : α) :
    findV (eraseV m a) a = none := by
  induction m with
  | nil => rfl
  | cons kv rest ih =>
    obtain ⟨k, v⟩ := kv
    by_cases h : k = a
    · simpa [eraseV, h] using ih
    · simpa [eraseV, findV, h] using ih

theorem findV_setV_self {α β : Type} [DecidableEq α] (m : List (α × β)) (a : α) (b : β) :
    findV (setV m a b) a = some b := by
  induction m with
  | nil => simp [setV, findV]
  | cons kv rest ih =>
    obtain ⟨k, v⟩ := kv
    by_cases h : k = a
    · simp [setV, h, findV]
    · simp [setV, findV, h, ih]

theorem findV_setV_ne {α β : Type} [DecidableEq α] (m : List (α × β)) (a j : α) (b : β)
    (h : j ≠ a) : findV (setV m a b) j = findV m j := by
  have hne : ¬(a = j) := fun hc => h (Eq.symm hc)
  induction m with
  | nil =>
    simp only [setV, findV]
    rw [if_neg hne]
  | cons kv rest ih =>
    obtain ⟨k, v⟩ := kv
    by_cases hk : k = a
    · subst hk
      simp only [setV, if_pos rfl, findV]
      rw [if_neg hne, if_neg hne]
    · simp only [setV, if_neg hk, findV]
      by_cases hj : k = j
      · rw [if_pos hj, if_pos hj]
      · rw [if_neg hj, if_neg hj, ih]

theorem hasV_setV_of_has {α β : Type} [DecidableEq α] (m : List (α × β)) (a j : α) (b : β)
    (h : hasV m a = true) : hasV (setV m a b) j = hasV m j := by
  by_cases hj : j = a
  · subst hj
    simp only [hasV, findV_setV_self, Option.isSome_some]
    exact h.symm
  · simp [hasV, findV_setV_ne m a j b hj]

theorem clearRescheduleState_prefetches (st : PrefState) (blockID : BlockID) :
    (clearRescheduleState st blockID).prefetches = st.prefetches := by
  unfold clearRescheduleState
  cases findV st.rescheduled blockID <;> rfl

theorem clearRescheduleState_hasV (st : PrefState) (blockID j : BlockID) :
    hasV (clearRescheduleState st blockID).rescheduled j = hasV st.rescheduled j := by
  unfold clearRescheduleState
  cases h : findV st.rescheduled blockID with
  | none => rfl
  | some rp =>
    have hh : hasV st.rescheduled blockID = true := by simp [hasV, h]
    simpa using hasV_setV_of_has st.rescheduled blockID j { rp with timer := none } hh

theorem backfillReqState_rescheduled (req : PrefetchRequest) (st : PrefState) :
    (backfillReqState req st).rescheduled = st.rescheduled := by
  unfold backfillReqState
  cases findV st.prefetches req.ptr.id with
  | none => rfl
  | some pre => by_cases h : pre.req.isNone <;> simp [h]

theorem backfillReqState_hasV (req : PrefetchRequest) (st : PrefState) (j : BlockID) :
    hasV (backfillReqState req st).prefetches j = hasV st.prefetches j := by
  unfold backfillReqState
  cases h : findV st.prefetches req.ptr.id with
  | none => rfl
  | some pre =>
    have hh : hasV st.prefetches req.ptr.id = true := by simp [hasV, h]
    by_cases hn : pre.req.isNone <;>
      simp [hn, hasV_setV_of_has st.prefetches req.ptr.id j _ hh]

theorem backfillReqState_find_self (req : PrefetchRequest) (st : PrefState) (p : Prefetch)
    (h : findV (backfillReqState req st).prefetches req.ptr.id = some p) :
    p.req.isSome = true := by
  unfold backfillReqState at h
  cases hf : findV st.prefetches req.ptr.id with
  | none =>
    simp only [hf] at h
    cases h
  | some pre =>
    simp only [hf] at h
    cases hr : pre.req with
    | none =>
      rw [hr] at h
      simp only [Option.isNone_none, if_true, findV_setV_self] at h
      cases h
      rfl
    | some r =>
      rw [hr] at h
      simp only [Option.isNone_some, Bool.false_eq_true, if_false, hf] at h
      cases h
      rw [hr]
      rfl

/-- C6: for every request reaching the cache-pressure gate: no room with a
`Sync` action reschedules the request and aborts handling; no room with a
non-`Sync` action aborts silently exactly when the action stops when full; in
every other case (room available, no disk cache, or a space-query error)
handling continues.  Stated as an equation between the embedded `stopIfNeeded`
and the claim-side transcription `stopIfNeededSpec`. -/
theorem C6_stopIfNeeded_matches_claim (env : Env) (req : PrefetchRequest) :
    stopIfNeeded env req = stopIfNeededSpec env req := by
  unfold stopIfNeeded stopIfNeededSpec
  cases h : env.hasDiskCache
  · simp
  · simp only [Bool.not_true, Bool.false_eq_true, if_false, if_true]
    cases hs : env.cacheHasSpace req.action.cacheType with
    | none => rfl
    | some room =>
      cases room
      · cases hsync : req.action.sync
        · simp only [Bool.false_eq_true, if_false]
          cases hf : req.action.stopWhenFull <;> simp
        · simp
      · rfl

/-- C1: applying `complete_prefetch(n)` to an active record subtracts `n` from
its `subtree_block_count`; a negative result panics; exactly when the result
is 0 the record is removed from the active map, its reschedule state is
cleared and removed, a solo fetch of the block is re-issued, the block is
written to the caches with status `Finished`, and its wait signal is closed;
otherwise only the count changes. -/
theorem C1_completePrefetch_spec (env : Env) (n : Int) (blockID : BlockID)
    (st : PrefState) (pp : Prefetch) (r : PrefetchRequest) (b : Block)
    (hfind : findV st.prefetches blockID = some pp)
    (hreq : pp.req = some r)
    (hfetch : env.fetchResult r.ptr = some b) :
    (pp.subtreeBlockCount - n < 0 →
      completePrefetch env n blockID st = .error "completePrefetch overstepped its bounds")
    ∧ (pp.subtreeBlockCount - n = 0 →
      ∃ st', completePrefetch env n blockID st =
          .ok (st', [Effect.fetchSolo r.ptr,
                     Effect.putCaches r.ptr PrefetchStatus.finishedPrefetch,
                     Effect.closeW blockID])
        ∧ hasV st'.prefetches blockID = false
        ∧ hasV st'.rescheduled blockID = false)
    ∧ (0 < pp.subtreeBlockCount - n →
      completePrefetch env n blockID st = .ok (decrementedState st blockID pp n, [])) := by
  refine ⟨?_, ?_, ?_⟩ <;> intro h
  · simp only [completePrefetch, hfind]
    rw [if_pos h]
  · simp only [completePrefetch, hfind, hreq, hfetch]
    rw [if_neg (by omega), if_pos h]
    refine ⟨_, rfl, ?_, ?_⟩
    · simp [hasV, clearRescheduleState_prefetches, findV_eraseV_self]
    · simp [hasV, findV_eraseV_self]
  · simp only [completePrefetch, hfind, hreq]
    rw [if_neg (by omega), if_neg (by omega)]
    simp only [decrementedState, hreq]

/-- Witness for C1 at block 5 of `st1w` with `n = 2` (the count reaches 0). -/
theorem C1_completePrefetch_spec_witness :
    findV st1w.prefetches 5 = some pw ∧ pw.req = some reqB ∧
    env2.fetchResult reqB.ptr = some bContent ∧
    ((pw.subtreeBlockCount - 2 < 0 →
      completePrefetch env2 2 5 st1w = .error "completePrefetch overstepped its bounds")
    ∧ (pw.subtreeBlockCount - 2 = 0 →
      ∃ st', completePrefetch env2 2 5 st1w =
          .ok (st', [Effect.fetchSolo reqB.ptr,
                     Effect.putCaches reqB.ptr PrefetchStatus.finishedPrefetch,
                     Effect.closeW 5])
        ∧ hasV st'.prefetches 5 = false
        ∧ hasV st'.rescheduled 5 = false)
    ∧ (0 < pw.subtreeBlockCount - 2 →
      completePrefetch env2 2 5 st1w = .ok (decrementedState st1w 5 pw 2, []))) :=
  ⟨by decide, by decide, by decide,
   C1_completePrefetch_spec env2 2 5 st1w pw reqB bContent (by decide) (by decide) (by decide)⟩

/-- C10: rescheduling a top-level block whose backoff is exhausted (`Stop`):
the record has already been removed from the active map and closed (the
`closeW` effect), the block stays in the rescheduled map with no timer armed,
and no effect re-enqueues the request — the prefetch is silently dropped. -/
theorem C10_reschedule_stop_drops (env : Env) (blockID : BlockID) (st : PrefState)
    (pp : Prefetch) (r : PrefetchRequest)
    (hfind : findV st.prefetches blockID = some pp)
    (hpar : pp.parents = [])
    (hreq : pp.req = some r)
    (hrp : (findV st.rescheduled blockID).getD ⟨env.newBackoff, none⟩ = ⟨[], none⟩) :
    ∃ st', rescheduleTopBlock env blockID st = .ok (st', [Effect.closeW blockID])
      ∧ hasV st'.prefetches blockID = false
      ∧ findV st'.rescheduled blockID = some ⟨[], none⟩ := by
  simp only [rescheduleTopBlock, hfind, hpar, List.length_nil, gt_iff_lt,
    lt_self_iff_false, if_false]
  cases hrs : findV st.rescheduled blockID with
  | none =>
    have hnb : env.newBackoff = [] := by
      rw [hrs] at hrp
      exact congrArg RescheduledPrefetch.off hrp
    simp only [hrs, hnb, Option.isSome_none, Bool.false_eq_true, if_false, hreq]
    refine ⟨_, rfl, ?_, ?_⟩
    · simp [hasV, findV_eraseV_self]
    · exact findV_setV_self _ _ _
  | some rp =>
    have hrp2 : rp = ⟨[], none⟩ := by
      rw [hrs] at hrp
      exact hrp
    subst hrp2
    simp only [hrs, Option.isSome_none, Bool.false_eq_true, if_false, hreq]
    refine ⟨_, rfl, ?_, ?_⟩
    · simp [hasV, findV_eraseV_self]
    · exact hrs

/-- Witness for C10 at block 6 of `st10` under the exhausted backoff of
`env10`. -/
theorem C10_reschedule_stop_drops_witness :
    findV st10.prefetches 6 = some pw10 ∧ pw10.parents = [] ∧ pw10.req = some reqB ∧
    (findV st10.rescheduled 6).getD ⟨env10.newBackoff, none⟩ = ⟨[], none⟩ ∧
    (∃ st', rescheduleTopBlock env10 6 st10 = .ok (st', [Effect.closeW 6])
      ∧ hasV st'.prefetches 6 = false
      ∧ findV st'.rescheduled 6 = some ⟨[], none⟩) :=
  ⟨by decide, by decide, by decide, by decide,
   C10_reschedule_stop_drops env10 6 st10 pw10 reqB
     (by decide) (by decide) (by decide) (by decide)⟩

/-- C2 counterexample: after the two-event trace `c2Trace` — a reschedule of
block 1 followed by the request its timer re-submits — the worker reaches an
iteration boundary at which block 1 is a key of both the active-prefetches map
and the rescheduled map, because the request path only disarms the timer and
leaves the rescheduled entry in place while re-activating the block. -/
theorem C2_counterexample :
    isOkR (runTrace env2 20 c2Trace emptyState) = true ∧
    hasV (stateAfter (runTrace env2 20 c2Trace emptyState)).prefetches 1 = true ∧
    hasV (stateAfter (runTrace env2 20 c2Trace emptyState)).rescheduled 1 = true :=
  ⟨by decide, by decide, by decide⟩

/-- C2 amended: disjointness holds at the moment `rescheduleTopBlock` moves a
top-level block into the rescheduled map — the block leaves the active map
right then — though it is not an invariant of every iteration boundary. -/
theorem C2_rescheduleTopBlock_disjoint (env : Env) (blockID : BlockID) (st : PrefState)
    (pp : Prefetch) (r : PrefetchRequest)
    (hfind : findV st.prefetches blockID = some pp)
    (hpar : pp.parents = [])
    (hreq : pp.req = some r) :
    ∃ st' effs, rescheduleTopBlock env blockID st = .ok (st', effs)
      ∧ hasV st'.prefetches blockID = false
      ∧ hasV st'.rescheduled blockID = true := by
  simp only [rescheduleTopBlock, hfind, hpar, List.length_nil, gt_iff_lt,
    lt_self_iff_false, if_false]
  cases hrs : findV st.rescheduled blockID with
  | none =>
    simp only [hrs, Option.isSome_none, Bool.false_eq_true, if_false, hreq]
    cases env.newBackoff with
    | nil =>
      refine ⟨_, _, rfl, ?_, ?_⟩
      · simp [hasV, findV_eraseV_self]
      · simp [hasV, findV_setV_self]
    | cons d rest =>
      refine ⟨_, _, rfl, ?_, ?_⟩
      · simp [hasV, findV_eraseV_self]
      · simp [hasV, findV_setV_self]
  | some rp =>
    cases ht : rp.timer with
    | some t =>
      simp only [hrs, ht, Option.isSome_some, if_true]
      refine ⟨_, _, rfl, ?_, ?_⟩
      · simp [hasV, findV_eraseV_self]
      · simp [hasV, hrs]
    | none =>
      simp only [hrs, ht, Option.isSome_none, Bool.false_eq_true, if_false, hreq]
      cases ho : rp.off with
      | nil =>
        refine ⟨_, _, rfl, ?_, ?_⟩
        · simp [hasV, findV_eraseV_self]
        · simp [hasV, hrs]
      | cons d rest =>
        refine ⟨_, _, rfl, ?_, ?_⟩
        · simp [hasV, findV_eraseV_self]
        · simp [hasV, findV_setV_self]

/-- Witness for the amended C2 at block 5 of `st1w`. -/
theorem C2_rescheduleTopBlock_disjoint_witness :
    findV st1w.prefetches 5 = some pw ∧ pw.parents = [] ∧ pw.req = some reqB ∧
    (∃ st' effs, rescheduleTopBlock env2 5 st1w = .ok (st', effs)
      ∧ hasV st'.prefetches 5 = false
      ∧ hasV st'.rescheduled 5 = true) :=
  ⟨by decide, by decide, by decide,
   C2_rescheduleTopBlock_disjoint env2 5 st1w pw reqB (by decide) (by decide) (by decide)⟩

theorem hasV_setV_mono {α β : Type} [DecidableEq α] (m : List (α × β)) (a j : α) (b : β)
    (h : hasV m j = true) : hasV (setV m a b) j = true := by
  by_cases hj : j = a
  · subst hj
    simp [hasV, findV_setV_self]
  · rw [hasV, findV_setV_ne m a j b hj]
    exact h

theorem hasV_setV_ne {α β : Type} [DecidableEq α] (m : List (α × β)) (a j : α) (b : β)
    (h : j ≠ a) : hasV (setV m a b) j = hasV m j := by
  rw [hasV, findV_setV_ne m a j b h]
  rfl

/-- C7 counterexample: a record with `subtree_block_count = 0` satisfies the
claimed invariant `subtree_block_count ≥ 0`, yet `decrementPrefetch` on it
takes the abort branch — so that branch is reachable from invariant-satisfying
states and is not unreachable as claimed. -/
theorem C7_counterexample :
    st7.prefetches.all (fun kv => decide (0 ≤ kv.2.subtreeBlockCount)) = true ∧
    decrementPrefetch 4 st7 = .error "decrementPrefetch overstepped its bounds" :=
  ⟨by decide, by decide⟩

/-- C7 amended: `decrementPrefetch` aborts exactly on a record whose count is
below 1 (so counts ≥ 1 at every decremented node, not merely ≥ 0, make the
branch unreachable), and the child `request` (whose child record carries a
request, and where a distinct parent is being recorded) aborts exactly when
the parent block ID is not in the active map. -/
theorem C7_abort_guards (st : PrefState) (id : BlockID) (priority : Int)
    (ptr : BlockPointer) (block : Block) (parentPtr : BlockPointer)
    (isParentNew : Bool) (action : Action) (seen : List BlockID)
    (hseen : seen.contains ptr.id = false)
    (hne : parentPtr.id ≠ ptr.id)
    (hchild : ∀ p, findV st.prefetches ptr.id = some p → p.req.isSome = true) :
    (isOkE (decrementPrefetch id st) = false ↔
      ∃ pp, findV st.prefetches id = some pp ∧ pp.subtreeBlockCount < 1)
    ∧ (isOkE (requestChild priority ptr block parentPtr isParentNew action seen st) = false ↔
      hasV st.prefetches parentPtr.id = false) := by
  constructor
  · cases hf : findV st.prefetches id with
    | none =>
      simp only [decrementPrefetch, hf, isOkE]
      constructor
      · intro h
        cases h
      · rintro ⟨pp, hpp, _⟩
        cases hpp
    | some pp =>
      simp only [decrementPrefetch, hf]
      by_cases hc : pp.subtreeBlockCount - 1 < 0
      · rw [if_pos hc]
        exact ⟨fun _ => ⟨pp, rfl, by omega⟩, fun _ => rfl⟩
      · rw [if_neg hc]
        constructor
        · intro h
          simp [isOkE] at h
        · rintro ⟨pp2, hpp2, hlt⟩
          cases hpp2
          exact absurd hlt (by omega)
  · cases hf : findV st.prefetches ptr.id with
    | some pre =>
      obtain ⟨pr, hpr⟩ := Option.isSome_iff_exists.mp (hchild pre hf)
      simp only [requestChild, hseen, Bool.false_eq_true, if_false, hf, hpr]
      by_cases hact : pr.action = action.combine pr.action
      · have hcond : (!true || decide (pr.action ≠ action.combine pr.action)) = false := by
          rw [← hact]
          simp
        simp only [hcond, Bool.false_eq_true, if_false]
        by_cases hpv : hasV st.prefetches parentPtr.id = true
        · simp only [hpv, if_true]
          constructor
          · intro h
            split at h <;> simp [isOkE] at h
          · intro h
            cases h
        · have hpv2 : hasV st.prefetches parentPtr.id = false := by simpa using hpv
          simp only [hpv2, Bool.false_eq_true, if_false, isOkE]
      · have hcond : (!true || decide (pr.action ≠ action.combine pr.action)) = true := by
          simp only [Bool.not_true, Bool.false_or, decide_eq_true_eq]
          exact hact
        simp only [hcond, if_true]
        rw [hasV_setV_ne st.prefetches ptr.id parentPtr.id _ hne]
        by_cases hpv : hasV st.prefetches parentPtr.id = true
        · simp only [hpv, if_true]
          constructor
          · intro h
            split at h <;> simp [isOkE] at h
          · intro h
            cases h
        · have hpv2 : hasV st.prefetches parentPtr.id = false := by simpa using hpv
          simp only [hpv2, Bool.false_eq_true, if_false, isOkE]
    | none =>
      simp only [requestChild, hseen, Bool.false_eq_true, if_false, hf, newPrefetchRec]
      simp only [Bool.not_false, Bool.true_or, if_true]
      rw [hasV_setV_ne _ _ _ _ hne, hasV_setV_ne _ _ _ _ hne]
      by_cases hpv : hasV st.prefetches parentPtr.id = true
      · simp only [hpv, if_true]
        constructor
        · intro h
          split at h <;> simp [isOkE] at h
        · intro h
          cases h
      · have hpv2 : hasV st.prefetches parentPtr.id = false := by simpa using hpv
        simp only [hpv2, Bool.false_eq_true, if_false, isOkE]

/-- Witness for C7 at the state `st4` (child 2, parent 1, decrement target 2
whose count is 5 ≥ 1). -/
theorem C7_abort_guards_witness :
    ([] : List BlockID).contains cPtr.id = false ∧ bPtr.id ≠ cPtr.id ∧
    ((isOkE (decrementPrefetch 2 st4) = false ↔
      ∃ pp, findV st4.prefetches 2 = some pp ∧ pp.subtreeBlockCount < 1)
    ∧ (isOkE (requestChild 9 cPtr (Block.fileBlock false []) bPtr false actNormal [] st4) = false ↔
      hasV st4.prefetches bPtr.id = false)) :=
  ⟨by decide, by decide,
   C7_abort_guards st4 2 9 cPtr (Block.fileBlock false []) bPtr false actNormal []
     (by decide) (by decide)
     (fun p hp => by
       have h2 : findV st4.prefetches cPtr.id = some childRec := by decide
       rw [h2] at hp
       cases hp
       decide)⟩

/-- C4 counterexample: in `st4` the parent edge 2→1 is already recorded on the
child record, yet a child request with `isParentNew = true` returns the
child's `subtreeBlockCount` (5), not the 0 the claim promises whenever the
edge was already present. -/
theorem C4_counterexample :
    ((findV childRec.parents cPtr.refNonce).getD []).contains bPtr = true ∧
    numBlocksOfR (requestChild 9 cPtr (Block.fileBlock false []) bPtr true actNormal [] st4) = 5 ∧
    numBlocksOfR (requestChild 9 cPtr (Block.fileBlock false []) bPtr true actNormal [] st4) ≠ 0 :=
  ⟨by decide, by decide, by decide⟩

/-- C4 amended: the child request records the parent-child edge under the
child's `parents` map at the child pointer's ref nonce, and it returns the
child's `subtree_block_count` if and only if the edge is newly added **or the
parent record is new** (`isParentNew`); it returns 0 only when the edge was
present and the parent is not new. -/
theorem C4_child_edge_contribution (priority : Int) (ptr : BlockPointer)
    (block : Block) (parentPtr : BlockPointer) (isParentNew : Bool)
    (action : Action) (seen : List BlockID) (st : PrefState)
    (pre0 : Prefetch) (pr : PrefetchRequest)
    (hseen : seen.contains ptr.id = false)
    (hne : parentPtr.id ≠ ptr.id)
    (hpre0 : (findV st.prefetches ptr.id).getD
        (newPrefetchRec 1 false ⟨ptr, block, priority, PrefetchStatus.noPrefetch, action, false⟩)
        = pre0)
    (hreq : pre0.req = some pr)
    (hparent : hasV st.prefetches parentPtr.id = true) :
    ∃ c, requestChild priority ptr block parentPtr isParentNew action seen st = .ok c
      ∧ c.numBlocks = (if ((findV pre0.parents ptr.refNonce).getD []).contains parentPtr
            && !isParentNew then 0 else pre0.subtreeBlockCount)
      ∧ ∃ preOut, findV c.st.prefetches ptr.id = some preOut
          ∧ ((findV preOut.parents ptr.refNonce).getD []).contains parentPtr = true := by
  cases hf : findV st.prefetches ptr.id with
  | some pre =>
    rw [hf, Option.getD_some] at hpre0
    subst hpre0
    simp only [requestChild, hseen, Bool.false_eq_true, if_false, hf, hreq]
    by_cases hact : pr.action = action.combine pr.action
    · have hcond : (!true || decide (pr.action ≠ action.combine pr.action)) = false := by
        rw [← hact]
        simp
      simp only [hcond, Bool.false_eq_true, if_false, hparent, if_true]
      by_cases hedge : ((findV pre.parents ptr.refNonce).getD []).contains parentPtr = true
      · cases hip : isParentNew
        · simp only [hedge, Bool.not_true, Bool.false_or, Bool.false_eq_true, if_false,
            Bool.not_false, Bool.and_true, if_true]
          exact ⟨_, rfl, rfl, pre, hf, hedge⟩
        · simp only [hedge, Bool.not_true, Bool.false_or, if_true, Bool.and_false,
            Bool.false_eq_true, if_false]
          refine ⟨_, rfl, rfl, _, findV_setV_self _ _ _, ?_⟩
          simp only [findV_setV_self, Option.getD_some]
          exact hedge
      · have hedge2 : ((findV pre.parents ptr.refNonce).getD []).contains parentPtr = false := by
          simpa using hedge
        simp only [hedge2, Bool.not_false, Bool.true_or, if_true, Bool.false_and,
          Bool.false_eq_true, if_false]
        refine ⟨_, rfl, rfl, _, findV_setV_self _ _ _, ?_⟩
        simp only [findV_setV_self, Option.getD_some]
        simp
    · have hcond : (!true || decide (pr.action ≠ action.combine pr.action)) = true := by
        simp only [Bool.not_true, Bool.false_or, decide_eq_true_eq]
        exact hact
      simp only [hcond, if_true]
      rw [hasV_setV_ne st.prefetches ptr.id parentPtr.id _ hne]
      simp only [hparent, if_true]
      by_cases hedge : ((findV pre.parents ptr.refNonce).getD []).contains parentPtr = true
      · cases hip : isParentNew
        · simp only [hedge, Bool.not_true, Bool.false_or, Bool.false_eq_true, if_false,
            Bool.not_false, Bool.and_true, if_true]
          refine ⟨_, rfl, rfl, _, findV_setV_self _ _ _, hedge⟩
        · simp only [hedge, Bool.not_true, Bool.false_or, if_true, Bool.and_false,
            Bool.false_eq_true, if_false]
          refine ⟨_, rfl, rfl, _, findV_setV_self _ _ _, ?_⟩
          simp only [findV_setV_self, Option.getD_some]
          exact hedge
      · have hedge2 : ((findV pre.parents ptr.refNonce).getD []).contains parentPtr = false := by
          simpa using hedge
        simp only [hedge2, Bool.not_false, Bool.true_or, if_true, Bool.false_and,
          Bool.false_eq_true, if_false]
        refine ⟨_, rfl, rfl, _, findV_setV_self _ _ _, ?_⟩
        simp only [findV_setV_self, Option.getD_some]
        simp
  | none =>
    rw [hf, Option.getD_none] at hpre0
    subst hpre0
    simp only [requestChild, hseen, Bool.false_eq_true, if_false, hf, newPrefetchRec]
    simp only [Bool.not_false, Bool.true_or, if_true]
    rw [hasV_setV_ne _ _ _ _ hne, hasV_setV_ne _ _ _ _ hne]
    simp only [hparent, if_true]
    simp only [findV, Option.getD_none, List.contains_nil, Bool.false_and,
      Bool.false_eq_true, if_false, Bool.not_false, Bool.true_or, if_true]
    refine ⟨_, rfl, rfl, _, findV_setV_self _ _ _, ?_⟩
    simp only [findV_setV_self, Option.getD_some]
    simp [findV]

/-- Witness for the amended C4 at the already-recorded edge 2→1 of `st4` with
an old parent. -/
theorem C4_child_edge_contribution_witness :
    ([] : List BlockID).contains cPtr.id = false ∧ bPtr.id ≠ cPtr.id ∧
    (findV st4.prefetches cPtr.id).getD
        (newPrefetchRec 1 false ⟨cPtr, Block.fileBlock false [], 9,
          PrefetchStatus.noPrefetch, actNormal, false⟩) = childRec ∧
    childRec.req = some childReq ∧ hasV st4.prefetches bPtr.id = true ∧
    (∃ c, requestChild 9 cPtr (Block.fileBlock false []) bPtr false actNormal [] st4 = .ok c
      ∧ c.numBlocks = (if ((findV childRec.parents cPtr.refNonce).getD []).contains bPtr
            && !false then 0 else childRec.subtreeBlockCount)
      ∧ ∃ preOut, findV c.st.prefetches cPtr.id = some preOut
          ∧ ((findV preOut.parents cPtr.refNonce).getD []).contains bPtr = true) :=
  ⟨by decide, by decide, by decide, by decide, by decide,
   C4_child_edge_contribution 9 cPtr (Block.fileBlock false []) bPtr false actNormal [] st4
     childRec childReq (by decide) (by decide) (by decide) (by decide) (by decide)⟩

/-- C3 counterexample: a wait-channel request for block 7 is answered with the
pre-closed signal, but the handler first runs the reschedule-state clearing —
block 7's armed timer in `st3` is stopped — so the rescheduled map's timers
are *not* left unchanged on this path as the claim states. -/
theorem C3_counterexample :
    findV st3.rescheduled 7 = some ⟨[], some reqB⟩ ∧
    handleRequestEvent env2 10 reqW st3 =
      .ok (⟨[], [(7, ⟨[], none⟩)]⟩, [Effect.sendWait 7 false]) ∧
    findV (stateAfter (handleRequestEvent env2 10 reqW st3)).rescheduled 7 =
      some ⟨[], none⟩ :=
  ⟨by decide, by decide, by decide⟩

/-- C3 amended: on a request whose `send_ch` is set the worker replies with
the block's wait signal when the block is active and a pre-closed signal when
it is not, and returns; but before replying it back-fills a missing `req` on
the active record and clears the block's reschedule timer, so only the key
sets of both maps — not the timers — are guaranteed unchanged. -/
theorem C3_wait_fast_path (env : Env) (fuel : Nat) (req : PrefetchRequest)
    (st : PrefState) (hsend : req.sendToCh = true) :
    handleRequestEvent env fuel req st =
      .ok (clearRescheduleState (backfillReqState req st) req.ptr.id,
           [Effect.sendWait req.ptr.id (hasV st.prefetches req.ptr.id)])
    ∧ (∀ j, hasV (clearRescheduleState (backfillReqState req st) req.ptr.id).prefetches j
        = hasV st.prefetches j)
    ∧ (∀ j, hasV (clearRescheduleState (backfillReqState req st) req.ptr.id).rescheduled j
        = hasV st.rescheduled j) := by
  refine ⟨?_, ?_, ?_⟩
  · simp only [handleRequestEvent, hsend, if_true]
    have hw : (findV (backfillReqState req st).prefetches req.ptr.id).isSome
        = hasV st.prefetches req.ptr.id := backfillReqState_hasV req st req.ptr.id
    rw [hw]
  · intro j
    rw [clearRescheduleState_prefetches, backfillReqState_hasV]
  · intro j
    rw [clearRescheduleState_hasV]
    rw [backfillReqState_rescheduled]

/-- Witness for the amended C3 at the wait query `reqW` on `st3`. -/
theorem C3_wait_fast_path_witness :
    reqW.sendToCh = true ∧
    (handleRequestEvent env2 10 reqW st3 =
      .ok (clearRescheduleState (backfillReqState reqW st3) reqW.ptr.id,
           [Effect.sendWait reqW.ptr.id (hasV st3.prefetches reqW.ptr.id)])
    ∧ (∀ j, hasV (clearRescheduleState (backfillReqState reqW st3) reqW.ptr.id).prefetches j
        = hasV st3.prefetches j)
    ∧ (∀ j, hasV (clearRescheduleState (backfillReqState reqW st3) reqW.ptr.id).rescheduled j
        = hasV st3.rescheduled j)) :=
  ⟨by decide, C3_wait_fast_path env2 10 reqW st3 (by decide)⟩

/-- C9 counterexample: with the shutdown signal closed, the send on the
unbounded request channel stays a ready select case, so a schedule exists on
which `WaitChannelForBlockPrefetch` enqueues and returns a wait channel
instead of the error, and `CancelPrefetch` enqueues the cancellation instead
of returning silently. -/
theorem C9_counterexample :
    schedGot.shutdownClosed = true ∧
    waitChannelForBlockPrefetch schedGot = some (WaitOutcome.gotCh, true) ∧
    cancelPrefetchCall true SelectBranch.enqueue = some true :=
  ⟨by decide, by decide, by decide⟩

/-- C9 amended: after shutdown is initiated, a call returns `Already shut
down` whenever its select commits to the shutdown branch, and every completed
wait call either returns an error or has enqueued its request (it cannot fail
silently in a third way); `CancelPrefetch` on the shutdown branch returns with
only a warning and without enqueuing.  Because the enqueue branch stays
ready, the claimed universal error return is not guaranteed. -/
theorem C9_shutdown_branch (s : WaitSchedule) (hclosed : s.shutdownClosed = true) :
    (s.firstPick = SelectBranch.shutdownObserved →
      waitChannelForBlockPrefetch s = some (WaitOutcome.errShutdown, false))
    ∧ (∀ o enq, waitChannelForBlockPrefetch s = some (o, enq) →
        o = WaitOutcome.errShutdown ∨ o = WaitOutcome.errCtx ∨ enq = true)
    ∧ cancelPrefetchCall s.shutdownClosed SelectBranch.shutdownObserved = some false := by
  refine ⟨?_, ?_, ?_⟩
  · intro hp
    simp [waitChannelForBlockPrefetch, WaitSchedule.firstValid, hp, hclosed]
  · intro o enq h
    unfold waitChannelForBlockPrefetch at h
    cases hfv : s.firstValid
    · rw [hfv] at h
      cases h
    · rw [hfv] at h
      simp only [Bool.not_true, Bool.false_eq_true, if_false] at h
      cases hp : s.firstPick
      · rw [hp] at h
        cases hsv : s.secondValid
        · rw [hsv] at h
          cases h
        · rw [hsv] at h
          simp only [Bool.not_true, Bool.false_eq_true, if_false] at h
          cases hsp : s.secondPick <;> rw [hsp] at h <;> cases h
          · exact Or.inr (Or.inr rfl)
          · exact Or.inl rfl
          · exact Or.inr (Or.inl rfl)
      · rw [hp] at h
        cases h
        exact Or.inl rfl
      · rw [hp] at h
        cases h
        exact Or.inr (Or.inl rfl)
  · simp [cancelPrefetchCall, hclosed]

/-- Witness for the amended C9 at the schedule `schedShut`. -/
theorem C9_shutdown_branch_witness :
    schedShut.shutdownClosed = true ∧
    ((schedShut.firstPick = SelectBranch.shutdownObserved →
      waitChannelForBlockPrefetch schedShut = some (WaitOutcome.errShutdown, false))
    ∧ (∀ o enq, waitChannelForBlockPrefetch schedShut = some (o, enq) →
        o = WaitOutcome.errShutdown ∨ o = WaitOutcome.errCtx ∨ enq = true)
    ∧ cancelPrefetchCall schedShut.shutdownClosed SelectBranch.shutdownObserved = some false) :=
  ⟨by decide, C9_shutdown_branch schedShut (by decide)⟩

theorem perm_insertBySize (e : DirEntry) (l : List DirEntry) :
    (insertBySize e l).Perm (e :: l) := by
  induction l with
  | nil => exact List.Perm.refl _
  | cons x xs ih =>
    simp only [insertBySize]
    by_cases hle : e.size ≤ x.size
    · rw [if_pos hle]
    · rw [if_neg hle]
      exact List.Perm.trans (List.Perm.cons x ih) (List.Perm.swap e x xs)

theorem sorted_insertBySize (e : DirEntry) (l : List DirEntry)
    (h : List.Sorted (fun a b : DirEntry => a.size ≤ b.size) l) :
    List.Sorted (fun a b : DirEntry => a.size ≤ b.size) (insertBySize e l) := by
  induction l with
  | nil => simp [insertBySize]
  | cons x xs ih =>
    simp only [insertBySize]
    rw [List.sorted_cons] at h
    obtain ⟨hx, hxs⟩ := h
    by_cases hle : e.size ≤ x.size
    · rw [if_pos hle]
      rw [List.sorted_cons]
      refine ⟨?_, by rw [List.sorted_cons]; exact ⟨hx, hxs⟩⟩
      intro b hb
      rcases List.mem_cons.mp hb with hb | hb
      · subst hb
        exact hle
      · exact le_trans hle (hx b hb)
    · rw [if_neg hle]
      rw [List.sorted_cons]
      refine ⟨?_, ih hxs⟩
      intro b hb
      have hb2 : b ∈ e :: xs := (perm_insertBySize e xs).mem_iff.mp hb
      rcases List.mem_cons.mp hb2 with hb2 | hb2
      · subst hb2
        omega
      · exact hx b hb2

theorem sortBySizeAsc_sorted (l : List DirEntry) :
    List.Sorted (fun a b : DirEntry => a.size ≤ b.size) (sortBySizeAsc l) := by
  induction l with
  | nil => simp [sortBySizeAsc]
  | cons x xs ih => exact sorted_insertBySize x (sortBySizeAsc xs) ih

theorem sortBySizeAsc_perm (l : List DirEntry) : (sortBySizeAsc l).Perm l := by
  induction l with
  | nil => exact List.Perm.refl _
  | cons x xs ih =>
    exact List.Perm.trans (perm_insertBySize x (sortBySizeAsc xs)) (List.Perm.cons x ih)

theorem prefetchDirEntries_filter (priority : Int) (parentPtr : BlockPointer)
    (isParentNew : Bool) (action : Action) :
    ∀ (l : List DirEntry) (total : Nat) (seen : List BlockID) (st : PrefState),
      prefetchDirEntries priority parentPtr isParentNew action l total seen st
        = prefetchDirEntries priority parentPtr isParentNew action
            (l.filter (fun e => e.entryType.prefetchable)) total seen st := by
  intro l
  induction l with
  | nil =>
    intro total seen st
    rfl
  | cons e rest ih =>
    intro total seen st
    by_cases hp : e.entryType.prefetchable = true
    · simp only [List.filter_cons, hp, if_true]
      simp only [prefetchDirEntries, hp, if_true]
      cases hr : requestChild priority e.ptr (shellFor e.entryType) parentPtr isParentNew
          action seen st with
      | error er => rfl
      | ok c => simp only [ih]
    · have hp2 : e.entryType.prefetchable = false := by simpa using hp
      simp only [List.filter_cons, hp2, Bool.false_eq_true, if_false]
      simp only [prefetchDirEntries, hp2, Bool.false_eq_true, if_false]
      exact ih total seen st

theorem prefetchDirEntries_total (priority : Int) (parentPtr : BlockPointer)
    (isParentNew : Bool) (action : Action) :
    ∀ (l : List DirEntry) (total : Nat) (seen : List BlockID) (st : PrefState)
      (n : Int) (t2 : Nat) (seen2 : List BlockID) (st2 : PrefState) (effs2 : List Effect),
      prefetchDirEntries priority parentPtr isParentNew action l total seen st
        = .ok (n, t2, seen2, st2, effs2) →
      t2 = total + (l.filter (fun e => e.entryType.prefetchable)).length := by
  intro l
  induction l with
  | nil =>
    intro total seen st n t2 seen2 st2 effs2 h
    cases h
    simp
  | cons e rest ih =>
    intro total seen st n t2 seen2 st2 effs2 h
    by_cases hp : e.entryType.prefetchable = true
    · simp only [prefetchDirEntries, hp, if_true] at h
      simp only [List.filter_cons, hp, if_true]
      cases hr : requestChild priority e.ptr (shellFor e.entryType) parentPtr isParentNew
          action seen st with
      | error er =>
        simp only [hr] at h
        cases h
      | ok c =>
        simp only [hr] at h
        cases hrec : prefetchDirEntries priority parentPtr isParentNew action rest
            (total + 1) c.seen c.st with
        | error er =>
          simp only [hrec] at h
          cases h
        | ok res =>
          obtain ⟨n3, t3, seen3, st3, effs3⟩ := res
          have hih := ih (total + 1) c.seen c.st n3 t3 seen3 st3 effs3 hrec
          simp only [hrec] at h
          cases h
          simp only [List.length_cons]
          omega
    · have hp2 : e.entryType.prefetchable = false := by simpa using hp
      simp only [prefetchDirEntries, hp2, Bool.false_eq_true, if_false] at h
      simp only [List.filter_cons, hp2, Bool.false_eq_true, if_false]
      exact ih total seen st n t2 seen2 st2 effs2 h

/-- C8: `prefetchDirectDirBlock` iterates the children sorted by ascending
entry size (the sorted list is a permutation of the children), symbolic-link
and unknown-type entries contribute nothing (the loop equals the loop over the
prefetchable entries only), and `is_tail` is returned true exactly when no
child entry was processed, i.e. when every child is a symbolic link or of
unknown type. -/
theorem C8_directDir_spec (basePriority : Int) (parentPtr : BlockPointer)
    (isParentNew : Bool) (action : Action) (children : List DirEntry) (st : PrefState) :
    List.Sorted (fun a b : DirEntry => a.size ≤ b.size) (sortBySizeAsc children)
    ∧ (sortBySizeAsc children).Perm children
    ∧ prefetchDirectDirBlock basePriority parentPtr isParentNew action children st
        = (match prefetchDirEntries (calculatePriority basePriority action) parentPtr
              isParentNew action
              ((sortBySizeAsc children).filter (fun e => e.entryType.prefetchable)) 0 [] st with
           | .error e => .error e
           | .ok (n, total, seen, st1, effs) => .ok (n, decide (total = 0), seen, st1, effs))
    ∧ (∀ (n : Int) (isTail : Bool) (seen : List BlockID) (st1 : PrefState) (effs : List Effect),
        prefetchDirectDirBlock basePriority parentPtr isParentNew action children st
          = .ok (n, isTail, seen, st1, effs) →
        (isTail = true ↔ children.all (fun e => !e.entryType.prefetchable) = true)) := by
  refine ⟨sortBySizeAsc_sorted children, sortBySizeAsc_perm children, ?_, ?_⟩
  · simp only [prefetchDirectDirBlock]
    rw [prefetchDirEntries_filter (calculatePriority basePriority action) parentPtr
      isParentNew action (sortBySizeAsc children) 0 [] st]
  · intro n isTail seen st1 effs h
    simp only [prefetchDirectDirBlock] at h
    cases hr : prefetchDirEntries (calculatePriority basePriority action) parentPtr
        isParentNew action (sortBySizeAsc children) 0 [] st with
    | error e =>
      simp only [hr] at h
      cases h
    | ok res =>
      obtain ⟨n3, total, seen3, st3, effs3⟩ := res
      have htot := prefetchDirEntries_total (calculatePriority basePriority action) parentPtr
        isParentNew action (sortBySizeAsc children) 0 [] st n3 total seen3 st3 effs3 hr
      simp only [hr] at h
      cases h
      have hlen : ((sortBySizeAsc children).filter (fun e => e.entryType.prefetchable)).length
          = (children.filter (fun e => e.entryType.prefetchable)).length :=
        ((sortBySizeAsc_perm children).filter _).length_eq
      rw [decide_eq_true_eq]
      constructor
      · intro ht0
        rw [List.all_eq_true]
        intro e he
        by_contra hc
        have hpe : e.entryType.prefetchable = true := by
          cases hpp : e.entryType.prefetchable
          · rw [hpp] at hc
            exact absurd rfl hc
          · rfl
        have hmem : e ∈ children.filter (fun e => e.entryType.prefetchable) :=
          List.mem_filter.mpr ⟨he, hpe⟩
        have : (children.filter (fun e => e.entryType.prefetchable)).length = 0 := by omega
        rw [List.length_eq_zero] at this
        rw [this] at hmem
        cases hmem
      · intro hall
        have hnil : children.filter (fun e => e.entryType.prefetchable) = [] := by
          rw [List.filter_eq_nil_iff]
          intro e he
          have := (List.all_eq_true.mp hall) e he
          simp only [Bool.not_eq_true'] at this
          simp [this]
        rw [hnil] at hlen
        simp only [List.length_nil] at hlen
        omega

theorem completePrefetch_effects (env : Env) (n : Int) :
    ∀ (id : BlockID) (s s2 : PrefState) (effs : List Effect),
      completePrefetch env n id s = .ok (s2, effs) →
      effs.all (fun e => !e.isFetchChild) = true := by
  intro id s s2 effs h
  unfold completePrefetch at h
  cases hf : findV s.prefetches id with
  | none =>
    simp only [hf] at h
    cases h
    rfl
  | some pp =>
    simp only [hf] at h
    by_cases hc : pp.subtreeBlockCount - n < 0
    · rw [if_pos hc] at h
      cases h
    · rw [if_neg hc] at h
      cases hr : pp.req with
      | none =>
        simp only [hr] at h
        cases h
      | some r =>
        simp only [hr] at h
        by_cases h0 : pp.subtreeBlockCount - n = 0
        · rw [if_pos h0] at h
          cases hfr : env.fetchResult r.ptr with
          | none =>
            simp only [hfr] at h
            cases h
            rfl
          | some b =>
            simp only [hfr] at h
            cases h
            rfl
        · rw [if_neg h0] at h
          cases h
          rfl

theorem walkAux_effects (P : Effect → Bool) (f : NodeFn)
    (hf : ∀ (id : BlockID) (s s2 : PrefState) (effs : List Effect),
      f id s = .ok (s2, effs) → effs.all P = true) :
    ∀ (fuel : Nat) (t : WalkTask) (st st2 : PrefState) (effs : List Effect),
      walkAux f fuel t st = .ok (st2, effs) → effs.all P = true := by
  intro fuel
  induction fuel with
  | zero =>
    intro t st st2 effs h
    simp only [walkAux] at h
    cases h
  | succ fuel ih =>
    intro t st st2 effs h
    cases t with
    | node blockID =>
      simp only [walkAux] at h
      cases hfind : findV st.prefetches blockID with
      | none =>
        simp only [hfind] at h
        exact hf blockID st st2 effs h
      | some pp =>
        simp only [hfind] at h
        cases hw : walkAux f fuel (WalkTask.buckets blockID pp.parents) st with
        | error e =>
          simp only [hw] at h
          cases h
        | ok r1 =>
          obtain ⟨st1, effs1⟩ := r1
          simp only [hw] at h
          cases hff : f blockID st1 with
          | error e =>
          simp only [hff] at h
          cases h
          | ok r2 =>
            obtain ⟨st2b, effs2⟩ := r2
            simp only [hff] at h
            cases h
            have h1 := ih _ _ _ _ hw
            have h2 := hf _ _ _ _ hff
            simp [List.all_append, h1, h2]
    | buckets blockID bs =>
      cases bs with
      | nil =>
        simp only [walkAux] at h
        cases h
        rfl
      | cons bkt rest =>
        obtain ⟨nonce, ps⟩ := bkt
        simp only [walkAux] at h
        cases hw : walkAux f fuel (WalkTask.ptrList blockID nonce ps) st with
        | error e =>
          simp only [hw] at h
          cases h
        | ok r1 =>
          obtain ⟨st1, effs1⟩ := r1
          simp only [hw] at h
          cases hw2 : walkAux f fuel (WalkTask.buckets blockID rest)
              (cleanupEmptyBucket st1 blockID nonce) with
          | error e =>
          simp only [hw2] at h
          cases h
          | ok r2 =>
            obtain ⟨st2b, effs2⟩ := r2
            simp only [hw2] at h
            cases h
            have h1 := ih _ _ _ _ hw
            have h2 := ih _ _ _ _ hw2
            simp [List.all_append, h1, h2]
    | ptrList blockID nonce ps =>
      cases ps with
      | nil =>
        simp only [walkAux] at h
        cases h
        rfl
      | cons pptr rest =>
        simp only [walkAux] at h
        by_cases hhas : hasV st.prefetches pptr.id = true
        · simp only [hhas, if_true] at h
          cases hw : walkAux f fuel (WalkTask.node pptr.id) st with
          | error e =>
          simp only [hw] at h
          cases h
          | ok r1 =>
            obtain ⟨st1, effs1⟩ := r1
            simp only [hw] at h
            cases hw2 : walkAux f fuel (WalkTask.ptrList blockID nonce rest) st1 with
            | error e =>
          simp only [hw2] at h
          cases h
            | ok r2 =>
              obtain ⟨st2b, effs2⟩ := r2
              simp only [hw2] at h
              cases h
              have h1 := ih _ _ _ _ hw
              have h2 := ih _ _ _ _ hw2
              simp [List.all_append, h1, h2]
        · have hhas2 : hasV st.prefetches pptr.id = false := by simpa using hhas
          simp only [hhas2, Bool.false_eq_true, if_false] at h
          exact ih _ _ _ _ h


/-- C5 counterexample: a request already marked `FinishedPrefetch` for a block
that is not active short-circuits with no cache write at all — the only effect
is the solo fetch — whereas the claim says the block is cached with status
`Finished` whenever it is not active. -/
theorem C5_counterexample :
    reqF.prefetchStatus = PrefetchStatus.finishedPrefetch ∧
    hasV emptyState.prefetches 3 = false ∧
    handleRequestEvent env5 10 reqF emptyState =
      .ok (emptyState, [Effect.fetchSolo reqF.ptr]) :=
  ⟨by decide, by decide, by decide⟩

/-- C5 amended: a request passing the solo retrieval whose status is Finished
or whose block is a tail triggers no child enumeration (no child-fetch effect
is ever emitted); when the block is not active, the block is cached with
status `Finished` only if the request's status was not already Finished (an
already-Finished request skips the redundant write); when the block is active
(here at a top-level record with a non-negative count), the handler completes
with the entire remaining `subtree_block_count` and the record is removed. -/
theorem C5_finished_tail (env : Env) (fuel : Nat) (req : PrefetchRequest)
    (st : PrefState) (b : Block)
    (hsend : req.sendToCh = false)
    (hfetch : env.fetchResult req.ptr = some b)
    (hft : req.prefetchStatus = PrefetchStatus.finishedPrefetch ∨ b.isTail = true) :
    ((effectsAfter (handleRequestEvent env fuel req st)).all (fun e => !e.isFetchChild) = true)
    ∧ (findV st.prefetches req.ptr.id = none →
        handleRequestEvent env fuel req st =
          .ok (clearRescheduleState st req.ptr.id,
            Effect.fetchSolo req.ptr ::
              (if req.prefetchStatus = PrefetchStatus.finishedPrefetch then []
               else [Effect.putCaches req.ptr PrefetchStatus.finishedPrefetch])))
    ∧ (∀ pp, findV st.prefetches req.ptr.id = some pp → pp.parents = [] →
        0 ≤ pp.subtreeBlockCount → 2 ≤ fuel →
        isOkR (handleRequestEvent env fuel req st) = true
        ∧ hasV (stateAfter (handleRequestEvent env fuel req st)).prefetches req.ptr.id = false) := by
  have hcond : (decide (req.prefetchStatus = PrefetchStatus.finishedPrefetch) || b.isTail) = true := by
    rcases hft with h | h
    · simp [h]
    · simp [h]
  refine ⟨?_, ?_, ?_⟩
  · cases hw : findV (backfillReqState req st).prefetches req.ptr.id with
    | none =>
      simp only [handleRequestEvent, hsend, Bool.false_eq_true, if_false, hfetch, hcond,
        if_true, hw]
      by_cases hst : req.prefetchStatus ≠ PrefetchStatus.finishedPrefetch
      · rw [if_pos hst]
        rfl
      · rw [if_neg hst]
        rfl
    | some pp2 =>
      simp only [handleRequestEvent, hsend, Bool.false_eq_true, if_false, hfetch, hcond,
        if_true, hw]
      by_cases hneg : pp2.subtreeBlockCount < 0
      · rw [if_pos hneg]
        rfl
      · rw [if_neg hneg]
        cases hwk : applyToParentsRecursive (completePrefetch env pp2.subtreeBlockCount) fuel
            req.ptr.id (clearRescheduleState (backfillReqState req st) req.ptr.id) with
        | error e =>
          simp only [hwk]
          rfl
        | ok r1 =>
          obtain ⟨stF, effsF⟩ := r1
          simp only [hwk]
          have hall := walkAux_effects (fun e => !e.isFetchChild)
            (completePrefetch env pp2.subtreeBlockCount)
            (completePrefetch_effects env pp2.subtreeBlockCount) fuel _ _ _ _ hwk
          simp only [effectsAfter, List.all_cons, List.all_append, hall, Bool.and_true]
          rfl
  · intro hnone
    have hb : backfillReqState req st = st := by
      unfold backfillReqState
      rw [hnone]
    simp only [handleRequestEvent, hb, hnone, hsend, Bool.false_eq_true, if_false, hfetch,
      hcond, if_true]
    by_cases hst : req.prefetchStatus = PrefetchStatus.finishedPrefetch
    · rw [if_neg (not_not_intro hst), if_pos hst]
    · rw [if_pos hst, if_neg hst]
      rfl
  · intro pp hsome hpar hpos hfuel
    obtain ⟨k, rfl⟩ : ∃ k, fuel = k + 2 := ⟨fuel - 2, by omega⟩
    have hbf : ∃ pp2, findV (backfillReqState req st).prefetches req.ptr.id = some pp2
        ∧ pp2.parents = [] ∧ pp2.subtreeBlockCount = pp.subtreeBlockCount
        ∧ ∃ r, pp2.req = some r := by
      unfold backfillReqState
      simp only [hsome]
      cases hr : pp.req with
      | none =>
        simp only [Option.isNone_none, if_true, findV_setV_self]
        exact ⟨_, rfl, hpar, rfl, req, rfl⟩
      | some r =>
        simp only [Option.isNone_some, Bool.false_eq_true, if_false]
        exact ⟨pp, hsome, hpar, rfl, r, hr⟩
    obtain ⟨pp2, hpp2, hpar2, hcnt2, r, hr2⟩ := hbf
    have hpp3 : findV (clearRescheduleState (backfillReqState req st)
        req.ptr.id).prefetches req.ptr.id = some pp2 := by
      rw [clearRescheduleState_prefetches]
      exact hpp2
    have hwalk : ∃ stF effsF,
        applyToParentsRecursive (completePrefetch env pp2.subtreeBlockCount) (k + 2)
          req.ptr.id (clearRescheduleState (backfillReqState req st) req.ptr.id)
        = .ok (stF, effsF) ∧ hasV stF.prefetches req.ptr.id = false := by
      unfold applyToParentsRecursive
      simp only [walkAux, hpp3, hpar2]
      unfold completePrefetch
      simp only [hpp3, sub_self, lt_self_iff_false, if_false, hr2, eq_self_iff_true, if_true]
      cases hfr : env.fetchResult r.ptr with
      | none =>
        refine ⟨_, _, rfl, ?_⟩
        simp [hasV, clearRescheduleState_prefetches, findV_eraseV_self]
      | some bb =>
        refine ⟨_, _, rfl, ?_⟩
        simp [hasV, clearRescheduleState_prefetches, findV_eraseV_self]
    obtain ⟨stF, effsF, hwk, hhas⟩ := hwalk
    have hneg : ¬(pp2.subtreeBlockCount < 0) := by omega
    simp only [handleRequestEvent, hsend, Bool.false_eq_true, if_false, hfetch, hcond,
      if_true, hpp2, if_neg hneg, hwk]
    exact ⟨rfl, hhas⟩


/-- Witness for the amended C5 at the finished request `reqF5` on the active
top-level block 5 of `st1w`. -/
theorem C5_finished_tail_witness :
    reqF5.sendToCh = false ∧
    env2.fetchResult reqF5.ptr = some (Block.fileBlock false []) ∧
    (reqF5.prefetchStatus = PrefetchStatus.finishedPrefetch
      ∨ (Block.fileBlock false []).isTail = true) ∧
    (((effectsAfter (handleRequestEvent env2 10 reqF5 st1w)).all
        (fun e => !e.isFetchChild) = true)
    ∧ (findV st1w.prefetches reqF5.ptr.id = none →
        handleRequestEvent env2 10 reqF5 st1w =
          .ok (clearRescheduleState st1w reqF5.ptr.id,
            Effect.fetchSolo reqF5.ptr ::
              (if reqF5.prefetchStatus = PrefetchStatus.finishedPrefetch then []
               else [Effect.putCaches reqF5.ptr PrefetchStatus.finishedPrefetch])))
    ∧ (∀ pp, findV st1w.prefetches reqF5.ptr.id = some pp → pp.parents = [] →
        0 ≤ pp.subtreeBlockCount → 2 ≤ 10 →
        isOkR (handleRequestEvent env2 10 reqF5 st1w) = true
        ∧ hasV (stateAfter (handleRequestEvent env2 10 reqF5 st1w)).prefetches
            reqF5.ptr.id = false)) :=
  ⟨by decide, by decide, Or.inl (by decide),
   C5_finished_tail env2 10 reqF5 st1w (Block.fileBlock false [])
     (by decide) (by decide) (Or.inl (by decide))⟩

/-- Witness for C8 at the mixed-type child list `c8kids`. -/
theorem C8_directDir_spec_witness :
    List.Sorted (fun a b : DirEntry => a.size ≤ b.size) (sortBySizeAsc c8kids)
    ∧ (sortBySizeAsc c8kids).Perm c8kids
    ∧ prefetchDirectDirBlock 10 bPtr true actNormal c8kids emptyState
        = (match prefetchDirEntries (calculatePriority 10 actNormal) bPtr
              true actNormal
              ((sortBySizeAsc c8kids).filter (fun e => e.entryType.prefetchable)) 0 [] emptyState with
           | .error e => .error e
           | .ok (n, total, seen, st1, effs) => .ok (n, decide (total = 0), seen, st1, effs))
    ∧ (∀ (n : Int) (isTail : Bool) (seen : List BlockID) (st1 : PrefState) (effs : List Effect),
        prefetchDirectDirBlock 10 bPtr true actNormal c8kids emptyState
          = .ok (n, isTail, seen, st1, effs) →
        (isTail = true ↔ c8kids.all (fun e => !e.entryType.prefetchable) = true)) :=
  C8_directDir_spec 10 bPtr true actNormal c8kids emptyState

end Prefetcher
